import Mathlib

/-!
Verification of the `node-xmlexact` library (src/xmlexact.js) against its
natural-language specification.

The JavaScript source is shallowly embedded: JS values are modelled by the
inductive `JSValue` (JS has a single number type; we model numbers that the
library produces — `parseInt`/`parseFloat` results and numeric literals — as
exact rationals, with a separate `nan` constructor for NaN, since no claim in
scope depends on IEEE-754 rounding), JS objects by insertion-ordered
association lists with unique keys, and the event-driven expat parser by an
explicit event list.  Mutation of objects reachable through the parser's
`objects` stack is modelled by a zipper: each stack frame stores the parent
object together with the key under which the currently open element was
attached, and on `endElement` the finished child value is written back into
that slot (in JS this write-back is implicit via aliasing).
-/

namespace XmlExact

/-- A JavaScript value as used by xmlexact.js: `undefined`, `null`, booleans,
numbers (exact rationals plus `nan`), strings, byte buffers (results of
`Buffer.from`), objects (insertion-ordered association lists) and arrays. -/
inductive JSValue where
  | undef : JSValue
  | null : JSValue
  | bool : Bool → JSValue
  | num : Rat → JSValue
  | nan : JSValue
  | str : String → JSValue
  | buf : List Nat → JSValue
  | obj : List (String × JSValue) → JSValue
  | arr : List JSValue → JSValue
deriving Repr

/-- A JS object, i.e. an insertion-ordered association list with unique keys. -/
abbrev JSObj := List (String × JSValue)

/-- A JS object used as a plain string-to-string map (the namespace maps
`namespaces`, `definitionNamespaces`, `definitionNamespaceUrls` in the source
only ever hold string values). -/
abbrev SMap := List (String × String)

/-- Property read `o[k]` on an object: the first binding wins; a missing key
yields `undefined` (JS property access on plain objects). -/
def getKey (o : JSObj) (k : String) : JSValue :=
  match o.find? (fun p => p.1 = k) with
  | some p => p.2
  | none => (.undef)

/-- `o.hasOwnProperty(k)`. -/
def hasOwn (o : JSObj) (k : String) : Bool :=
  o.any (fun p => p.1 = k)

/-- Property write `o[k] = v`: overwrites in place if the key exists (JS keeps
the key's original position), otherwise appends (JS appends new string keys in
insertion order). -/
def setKey (o : JSObj) (k : String) (v : JSValue) : JSObj :=
  if hasOwn o k then o.map (fun p => if p.1 = k then (k, v) else p) else o ++ [(k, v)]

/-- `delete o[k]`. -/
def delKey (o : JSObj) (k : String) : JSObj :=
  o.filter (fun p => ¬ p.1 = k)

/-- String-map read, `undefined` modelled as `none`. -/
def mapGet (m : SMap) (k : String) : Option String :=
  (m.find? (fun p => p.1 = k)).map (fun p => p.2)

/-- String-map write `m[k] = v` (overwrite in place, else append). -/
def mapSet (m : SMap) (k : String) (v : String) : SMap :=
  if m.any (fun p => p.1 = k) then m.map (fun p => if p.1 = k then (k, v) else p)
  else m ++ [(k, v)]

/-- JS truthiness of the values our embedding can produce: `undefined`, `null`,
`false`, `0`, `NaN` and `""` are falsy; every object (including `[]` and
buffers) is truthy. -/
def jsTruthy : JSValue → Bool
  | .undef => false
  | .null => false
  | .bool b => b
  | .num q => ¬ q = 0
  | .nan => false
  | .str s => ¬ s = ""
  | .buf _ => true
  | .obj _ => true
  | .arr _ => true

/-- JS strict equality `s === v` where the left operand is a string (the only
shape of `===` the embedded code performs against definition values): true
exactly when `v` is the same string.  (JS `===` between a string and any
non-string value, object references included, is `false`.) -/
def strictEqStr (s : String) (v : JSValue) : Bool :=
  match v with
  | .str t => s = t
  | _ => false

/-- `String(v)` for the values that reach string contexts in the embedded code
(property-key coercion and string concatenation). -/
def jsStringOf : JSValue → String
  | .undef => "undefined"
  | .null => "null"
  | .bool true => "true"
  | .bool false => "false"
  | .nan => "NaN"
  | .str s => s
  | .num q => if q.den = 1 then toString q.num else toString q
  | .buf _ => ""
  | .obj _ => "[object Object]"
  | .arr _ => ""

/-- `s.startsWith(pre)` via the character lists (structural, so that concrete
instances reduce definitionally). -/
def strStartsWith (s pre : String) : Bool :=
  pre.toList.isPrefixOf s.toList

/-- `s.endsWith(post)` via the character lists. -/
def strEndsWith (s post : String) : Bool :=
  post.toList.reverse.isPrefixOf s.toList.reverse

/-- Drop the first `n` characters. -/
def strDrop (s : String) (n : Nat) : String :=
  String.mk (s.toList.drop n)

/-- Drop the last `n` characters. -/
def strDropRight (s : String) (n : Nat) : String :=
  String.mk (s.toList.take (s.toList.length - n))

/-- The character count of `s`. -/
def strLength (s : String) : Nat :=
  s.toList.length

/-- Splits a character list at every occurrence of `sep`, keeping empty
pieces, like JS `String.prototype.split` with a single-character separator. -/
def splitCharList (sep : Char) : List Char → List (List Char)
  | [] => [[]]
  | c :: cs =>
    if c = sep then [] :: splitCharList sep cs
    else
      match splitCharList sep cs with
      | [] => [[c]]
      | h :: t => (c :: h) :: t

/-- JS `s.split(sep)` for a one-character separator: always returns at least
one piece; `"".split(':') == [""]`. -/
def jsSplitChar (sep : Char) (s : String) : List String :=
  (splitCharList sep s.toList).map (fun l => String.mk l)

/-- The whitespace class recognised by JS `parseInt`/`parseFloat` leading-trim
and by the regexp `\s`, restricted to the ASCII range (the non-ASCII JS
whitespace code points cannot occur in the inputs this development evaluates). -/
def jsIsWhitespace (c : Char) : Bool :=
  c = ' ' ∨ c = '\t' ∨ c = '\n' ∨ c = '\r' ∨ c = '\x0b' ∨ c = '\x0c'

/-- `value.match(/^\s*$/)` as a Boolean: the string is empty or all whitespace. -/
def matchesOnlyWhitespace (s : String) : Bool :=
  s.toList.all jsIsWhitespace

/-- Numeric value of a list of decimal digits, most significant first. -/
def digitsVal (ds : List Char) : Nat :=
  ds.foldl (fun a c => a * 10 + (c.toNat - 48)) 0

/-- JS `parseInt(s, 10)`: skip leading whitespace, optional sign, then the
longest prefix of decimal digits; no digits means `NaN` (modelled as `none`).
(JS computes in IEEE doubles, so enormous digit strings would round; the
strings this development evaluates are far below that range, and we model the
value exactly.) -/
def jsParseInt (s : String) : Option Int :=
  let cs := s.toList.dropWhile jsIsWhitespace
  let (sgn, cs) : Int × List Char :=
    match cs with
    | [] => (1, [])
    | c :: r => if c = '-' then (-1, r) else if c = '+' then (1, r) else (1, c :: r)
  let ds := cs.takeWhile Char.isDigit
  if ds.isEmpty then none else some (sgn * digitsVal ds)

/-- JS `parseFloat(s)`: skip leading whitespace, optional sign, then the
longest prefix shaped `digits [ '.' digits ] [ ('e'|'E') [sign] digits ]` (with
at least one digit before or after the dot); no such prefix means `NaN`.
Values are modelled as exact rationals (see the header note). -/
def jsParseFloat (s : String) : Option Rat :=
  let cs := s.toList.dropWhile jsIsWhitespace
  let (sgn, cs) : Rat × List Char :=
    match cs with
    | [] => (1, [])
    | c :: r => if c = '-' then (-1, r) else if c = '+' then (1, r) else (1, c :: r)
  let ip := cs.takeWhile Char.isDigit
  let cs1 := cs.dropWhile Char.isDigit
  let (fp, cs2) : List Char × List Char :=
    match cs1 with
    | [] => ([], cs1)
    | c :: r =>
      if c = '.' then (r.takeWhile Char.isDigit, r.dropWhile Char.isDigit) else ([], cs1)
  if ip.isEmpty ∧ fp.isEmpty then none
  else
    let mant : Rat := (digitsVal ip : Rat) + (digitsVal fp : Rat) / ((10 : Rat) ^ fp.length)
    let expPart : Rat :=
      match cs2 with
      | [] => 1
      | c :: r =>
        if c = 'e' ∨ c = 'E' then
          let (esgn, r2) : Int × List Char :=
            match r with
            | [] => (1, [])
            | d :: r3 => if d = '-' then (-1, r3) else if d = '+' then (1, r3) else (1, d :: r3)
          let eds := r2.takeWhile Char.isDigit
          if eds.isEmpty then 1 else (10 : Rat) ^ (esgn * (digitsVal eds : Int))
        else 1
    some (sgn * mant * expPart)

/-- One base64 sextet per alphabet character (`A..Za..z0..9+/`). -/
def base64Val (c : Char) : Option Nat :=
  if 'A' ≤ c ∧ c ≤ 'Z' then some (c.toNat - 65)
  else if 'a' ≤ c ∧ c ≤ 'z' then some (c.toNat - 97 + 26)
  else if '0' ≤ c ∧ c ≤ '9' then some (c.toNat - 48 + 52)
  else if c = '+' then some 62
  else if c = '/' then some 63
  else none

/-- `Buffer.from(s, 'base64')`: node ignores characters outside the alphabet
(including `=` padding) and decodes the remaining sextets greedily, dropping a
trailing partial byte. -/
def bufFromBase64 (s : String) : List Nat :=
  let sextets := s.toList.filterMap base64Val
  let rec go : List Nat → List Nat
    | a :: b :: c :: d :: rest =>
      (a * 4 + b / 16) :: ((b % 16) * 16 + c / 4) :: ((c % 4) * 64 + d) :: go rest
    | [a, b, c] => [a * 4 + b / 16, (b % 16) * 16 + c / 4]
    | [a, b] => [a * 4 + b / 16]
    | _ => []
  go sextets

/-- Value of a hex digit. -/
def hexVal (c : Char) : Option Nat :=
  if '0' ≤ c ∧ c ≤ '9' then some (c.toNat - 48)
  else if 'a' ≤ c ∧ c ≤ 'f' then some (c.toNat - 97 + 10)
  else if 'A' ≤ c ∧ c ≤ 'F' then some (c.toNat - 65 + 10)
  else none

/-- `Buffer.from(s, 'hex')`: decode leading hex-digit pairs, stopping at the
first character that is not a hex digit or at a trailing odd digit. -/
def bufFromHex (s : String) : List Nat :=
  let rec go : List Char → List Nat
    | a :: b :: rest =>
      match hexVal a, hexVal b with
      | some x, some y => (x * 16 + y) :: go rest
      | _, _ => []
    | _ => []
  go s.toList

/-- The integer-family type names of `_convertFromXsdType` (source lines
343-356). -/
def integerTypeNames : List String :=
  ["byte", "int", "integer", "long", "negativeInteger", "nonNegativeInteger",
   "nonPositiveInteger", "short", "unsignedByte", "unsignedInt",
   "unsignedLong", "unsignedShort"]

/-- The float-family type names of `_convertFromXsdType` (source line 340). -/
def floatTypeNames : List String :=
  ["decimal", "double", "float"]

/-- The type-name dispatch of `_convertFromXsdType` after array unwrapping and
nullable stripping (source lines 338-365): boolean compares against the
literal `"true"`; the float family goes through `parseFloat`; the integer
family through `parseInt(…, 10)`; `base64Binary`/`hexBinary` decode into
buffers; every other type name returns the raw text unchanged. -/
def convertDispatch (t : String) (value : String) : JSValue :=
  if t = "boolean" then .bool (value = "true")
  else if floatTypeNames.contains t then
    match jsParseFloat value with
    | some q => .num q
    | none => .nan
  else if integerTypeNames.contains t then
    match jsParseInt value with
    | some n => .num (n : Rat)
    | none => .nan
  else if t = "base64Binary" then .buf (bufFromBase64 value)
  else if t = "hexBinary" then .buf (bufFromHex value)
  else .str value

/-- `_convertFromXsdType(type, value)` (source lines 325-366).  An array type
is unwrapped to its first element (`undefined` for `[]`).  A truthy string
type ending in `?` is nullable: whitespace-only text becomes `null`, otherwise
the stripped type is dispatched.  A falsy type (`undefined`, `""`, …) and any
unknown type name fall through to the final `else` and return the text
unchanged.  (A truthy non-string type would make JS raise a `TypeError` at
`type.endsWith`; no definition evaluated in this development produces one, and
we let those fall through as well.) -/
def convertFromXsdType (type : JSValue) (value : String) : JSValue :=
  let type :=
    match type with
    | .arr (t :: _) => t
    | .arr [] => .undef
    | t => t
  match type with
  | .str t =>
    if strEndsWith t "?" then
      if matchesOnlyWhitespace value then .null
      else convertDispatch (strDropRight t 1) value
    else convertDispatch t value
  | _ => .str value

/-- `_xsdTypeLookup(type)` (source lines 368-424): the fixed table from XSD
primitive type names to the coarse kind; an unknown name throws
`Error("Unknown XSD type '…'")`, modelled as `Except.error`. -/
def xsdTypeLookup (type : String) : Except String String :=
  if type = "boolean" then .ok "boolean"
  else if ["base64Binary", "hexBinary", "anyURI", "language", "normalizedString",
           "string", "token"].contains type then .ok "string"
  else if ["byte", "decimal", "double", "float", "int", "integer", "long",
           "negativeInteger", "nonNegativeInteger", "nonPositiveInteger", "short",
           "unsignedByte", "unsignedInt", "unsignedLong",
           "unsignedShort"].contains type then .ok "number"
  else if type = "empty" then .ok "empty"
  else if type = "any" then .ok "any"
  else .error ("Unknown XSD type '" ++ type ++ "'")

/-! ## The definition-driven parsing engine (`_fromXml`, source lines 97-323)

The expat tokenizer is modelled as a list of events.  The mutable variables of
`_fromXml` become the fields of `FState`; the JS arrays `objects` and `names`
are always pushed and popped in lockstep, so they are zipped into one `stack`
whose frames also realise the aliasing between `currentObject` and the slot of
the enclosing object it was attached to (see the header note). -/

/-- One event delivered by the streaming XML parser. -/
inductive XmlEvent where
  | startElement (name : String) (attributes : List (String × String))
  | text (data : String)
  | endElement (name : String)

/-- The parser state of one `_fromXml` call. -/
structure FState where
  /-- `definitions` (JS array, index 0 first; top of stack is the last entry). -/
  defs : List JSValue
  /-- `objects` zipped with `names`: each frame is the enclosing object
  together with the (namespace-stripped) name the open element was attached
  under. -/
  stack : List (JSObj × String)
  /-- `orders` (JS array, index 0 first). -/
  orders : List (List String)
  /-- `currentObject`. -/
  currentObject : JSObj
  /-- `currentValue`. -/
  currentValue : String
  /-- `currentType`. -/
  currentType : JSValue
  /-- `namespaces` (wire-declared alias → URL). -/
  namespaces : SMap
  /-- `definitionNamespaces` (definition-declared alias → URL). -/
  definitionNamespaces : SMap
  /-- `definitionNamespaceUrls` (definition-declared URL → alias). -/
  definitionNamespaceUrls : SMap

/-- Property access on a `JSValue` that is expected to be an object; on any
non-object it yields `undefined` (the only non-object values that ever sit on
the definitions stack are primitives, whose decorated-key properties such as
`"x$type"` are indeed undefined in JS). -/
def getProp (v : JSValue) (k : String) : JSValue :=
  match v with
  | .obj fs => getKey fs k
  | _ => (.undef)

/-- The namespace-splitting prologue shared by both element handlers (source
lines 115-121 and 253-257): `name.split(':')` keeping piece 1 as the local
name when a prefix is present. -/
def splitNsName (name0 : String) : Option String × String :=
  match jsSplitChar ':' name0 with
  | [_] => (none, name0)
  | a :: b :: _ => (some a, b)
  | [] => (none, name0)

/-- `_compareArray(array1, array2)` (source lines 913-928) where the second
argument is the observed order, always a real JS array of strings.  A falsy
first argument fails immediately; a non-array first argument with a `length`
(a string) is compared characterwise by JS's generic indexing, and any other
value has `undefined` length, which differs from a number, so the comparison
fails. -/
def compareArray (array1 : JSValue) (array2 : List String) : Bool :=
  if ¬ jsTruthy array1 then false
  else
    match array1 with
    | .arr xs =>
      if ¬ (xs.length = array2.length) then false
      else (xs.zip array2).all fun p => strictEqStr p.2 p.1
    | .str t =>
      if ¬ (t.length = array2.length) then false
      else (t.toList.zip array2).all fun p => p.2 = String.mk [p.1]
    | _ => false

/-- The order-attach conditional of the `endElement` handler (source lines
265-271): an observed order of more than one entry that differs from the
enclosing definition's canonical `name$order` is recorded on the enclosing
object. -/
def attachObservedOrder (definedOrder : JSValue) (name : String)
    (order : List String) (curObj : JSObj) : JSObj :=
  if 1 < order.length then
    if ¬ compareArray definedOrder order then
      setKey curObj (name ++ "$order") (.arr (order.map .str))
    else curObj
  else curObj

/-- `Object.getOwnPropertyNames(v).length` for the values that reach the
emptiness tests of the `endElement` handler (strings and arrays additionally
own a `length` property; primitives own none; `undefined`/`null` would throw
and are never tested there). -/
def propCount : JSValue → Nat
  | .obj fs => fs.length
  | .str s => s.length + 1
  | .arr xs => xs.length + 1
  | .buf bs => bs.length + 1
  | _ => 0

/-- `typeof v === 'object'`. -/
def isTypeofObject : JSValue → Bool
  | .obj _ => true
  | .arr _ => true
  | .null => true
  | .buf _ => true
  | _ => false

/-- JS `s.trim()` (ASCII whitespace; see `jsIsWhitespace`). -/
def jsTrim (s : String) : String :=
  String.mk (((s.toList.dropWhile jsIsWhitespace).reverse.dropWhile jsIsWhitespace).reverse)

/-- The write-back realising JS aliasing at `endElement`: the finished child
value replaces the slot the open element was attached to — the last entry if
that slot was (or was promoted to) an array, the slot itself otherwise. -/
def writeBack (parent : JSObj) (frameName : String) (child : JSValue) : JSObj :=
  match getKey parent frameName with
  | .arr xs => setKey parent frameName (.arr (xs.dropLast ++ [child]))
  | _ => setKey parent frameName child

/-- The `startElement` handler (source lines 113-246). -/
def startElementStep (inlineAttributes : Bool) (s : FState) (name0 : String)
    (attributes : List (String × String)) : FState :=
  -- Parse namespace (lines 115-121)
  let (nsAlias, name) := splitNsName name0
  let definition := s.defs.getLastD (.undef)
  -- `definition[name + '$attributes'] || {}` (line 124); definitions are
  -- objects (or primitives, handled by `getProp`), so the fallback is `{}`
  let definitionAttributes : JSObj :=
    match getProp definition (name ++ "$attributes") with
    | .obj fs => fs
    | _ => []
  let currentType := getProp definition (name ++ "$type")
  -- Extract namespaces for alias lookup (lines 133-138): keys matching
  -- `/^xmlns:(.+)$/` of the wire attributes update `namespaces`
  let namespaces := attributes.foldl
    (fun m kv =>
      if strStartsWith kv.1 "xmlns:" ∧ 6 < strLength kv.1 then
        mapSet m (strDrop kv.1 6) kv.2
      else m)
    s.namespaces
  -- (lines 139-145): same pattern over the definition's attribute defaults
  let defNsPair := definitionAttributes.foldl
    (fun (ms : SMap × SMap) kv =>
      if strStartsWith kv.1 "xmlns:" ∧ 6 < strLength kv.1 then
        (mapSet ms.1 (jsStringOf kv.2) (strDrop kv.1 6),
         mapSet ms.2 (strDrop kv.1 6) (jsStringOf kv.2))
      else ms)
    (s.definitionNamespaceUrls, s.definitionNamespaces)
  let definitionNamespaceUrls := defNsPair.1
  let definitionNamespaces := defNsPair.2
  -- (lines 147-156): foreign-namespace marker; `namespaces[nsAlias]` with an
  -- absent alias is `undefined`, and `definitionNamespaces[…]` is looked up
  -- with the declared alias only when `name$namespace` is a string (an
  -- `undefined` subscript finds no entry, since no key `"undefined"` exists)
  let nsUrl : Option String := nsAlias.bind fun a => mapGet namespaces a
  let definitionNsUrl : Option String :=
    match getProp definition (name ++ "$namespace") with
    | .str a => mapGet definitionNamespaces a
    | _ => none
  let markerState : JSObj × JSObj :=
    match nsAlias with
    | some a =>
      if ¬ (nsUrl = definitionNsUrl) then
        if inlineAttributes then ([("namespace$", .str a)], s.currentObject)
        else ([], setKey s.currentObject (name ++ "$namespace") (.str a))
      else ([], s.currentObject)
    | none => ([], s.currentObject)
  let nextObject := markerState.1
  let curObj := markerState.2
  -- Filter attributes (lines 159-189): drop those equal to the definition's
  -- default; coerce the kept ones by a declared `…$type`
  let surviving : List (String × JSValue) := attributes.filterMap fun kv =>
    let definitionValue : JSValue :=
      match jsSplitChar ':' kv.1 with
      | [_] => getKey definitionAttributes kv.1
      | a :: b :: _ =>
        if a = "xmlns" then
          match mapGet definitionNamespaceUrls kv.2 with
          | some _ => .str kv.2
          | none => .str ""
        else
          match (mapGet namespaces a).bind (mapGet definitionNamespaceUrls) with
          | some definitionNsAlias =>
            getKey definitionAttributes (definitionNsAlias ++ ":" ++ b)
          | none => .str ""
      | [] => getKey definitionAttributes kv.1
    if strictEqStr kv.2 definitionValue then none
    else
      let attributeType := getKey definitionAttributes (kv.1 ++ "$type")
      if jsTruthy attributeType then some (kv.1, convertFromXsdType attributeType kv.2)
      else some (kv.1, .str kv.2)
  -- Handle attributes (lines 192-216)
  let attrState : JSObj × JSObj :=
    if 0 < surviving.length then
      if inlineAttributes then
        (surviving.foldl (fun o kv => setKey o ("$" ++ kv.1) kv.2) nextObject, curObj)
      else
        let attrsObj : JSValue := .obj surviving
        if hasOwn curObj (name ++ "$attributes") then
          match getKey curObj (name ++ "$attributes") with
          | .arr xs => (nextObject, setKey curObj (name ++ "$attributes") (.arr (xs ++ [attrsObj])))
          | old => (nextObject, setKey curObj (name ++ "$attributes") (.arr [old, attrsObj]))
        else
          match currentType with
          | .arr _ => (nextObject, setKey curObj (name ++ "$attributes") (.arr [attrsObj]))
          | _ => (nextObject, setKey curObj (name ++ "$attributes") attrsObj)
    else (nextObject, curObj)
  let nextObject := attrState.1
  let curObj := attrState.2
  -- Handle tag (lines 219-233)
  let curObj :=
    if hasOwn curObj name then
      match getKey curObj name with
      | .arr xs => setKey curObj name (.arr (xs ++ [.obj nextObject]))
      | old => setKey curObj name (.arr [old, .obj nextObject])
    else
      match currentType with
      | .arr _ => setKey curObj name (.arr [.obj nextObject])
      | _ => setKey curObj name (.obj nextObject)
  -- Save order (lines 236-241); `names.length` is the pre-push stack depth
  let orders :=
    if s.orders.length ≤ s.stack.length then s.orders ++ [[name]]
    else
      match getKey curObj name with
      | .arr _ => s.orders
      | _ => s.orders.set s.stack.length (s.orders.getD s.stack.length [] ++ [name])
  -- Pushes and descent (lines 242-245); `definitions.push(definition[name] || {})`
  { defs := s.defs ++ [if jsTruthy (getProp definition name) then getProp definition name else .obj []]
    stack := s.stack ++ [(curObj, name)]
    orders := orders
    currentObject := nextObject
    currentValue := ""          -- line 128
    currentType := currentType
    namespaces := namespaces
    definitionNamespaces := definitionNamespaces
    definitionNamespaceUrls := definitionNamespaceUrls }

/-- The `endElement` handler (source lines 252-316). -/
def endElementStep (convertTypes : Bool) (s : FState) (name0 : String) : FState :=
  let (_, name) := splitNsName name0
  if s.stack.isEmpty then
    -- 'No objects in objects' (line 312): logged, then only the text buffer
    -- is cleared
    { s with currentValue := "" }
  else
    let frame := s.stack.getLastD ([], "")
    -- `currentObject = objects.pop(); definitions.pop()` (lines 260-261); the
    -- write-back realises the aliasing between the popped parent and the
    -- finished child
    let curObj := writeBack frame.1 frame.2 (.obj s.currentObject)
    let stack := s.stack.dropLast
    let defs := s.defs.dropLast
    -- Order attach (lines 263-272); `names` is popped only afterwards, so
    -- `names.length` here is the pre-pop depth `s.stack.length`
    let orderState : List (List String) × JSObj :=
      if s.stack.length < s.orders.length then
        (s.orders.dropLast,
         attachObservedOrder (getProp (defs.getLastD .undef) (name ++ "$order")) name
           (s.orders.getLastD []) curObj)
      else (s.orders, curObj)
    let orders := orderState.1
    let curObj := orderState.2
    -- Final value resolution (lines 275-310)
    let convertedValue : JSValue :=
      if convertTypes then convertFromXsdType s.currentType s.currentValue
      else .str s.currentValue
    let curObj :=
      match getKey curObj name with
      | .arr xs =>
        match xs.getLast? with
        | some last =>
          if propCount last = 0 then setKey curObj name (.arr (xs.dropLast ++ [convertedValue]))
          else
            match last with
            | .obj fs => setKey curObj name (.arr (xs.dropLast ++ [.obj (setKey fs "$" convertedValue)]))
            | _ => curObj   -- setting `.$` on a primitive is a silent no-op
        | none => curObj    -- an empty array slot is never produced by the attach step
      | v =>
        if isTypeofObject v then
          if propCount v = 0 then setKey curObj name convertedValue
          else if ¬ (jsTrim s.currentValue = "") then
            match v with
            | .obj fs => setKey curObj name (.obj (setKey fs "$" convertedValue))
            | _ => curObj
          else curObj
        else curObj
    { s with stack := stack, defs := defs, orders := orders,
             currentObject := curObj, currentValue := "" }

/-- One event dispatch of `_fromXml`. -/
def step (inlineAttributes convertTypes : Bool) (s : FState) (e : XmlEvent) : FState :=
  match e with
  | .startElement n attrs => startElementStep inlineAttributes s n attrs
  | .text d => { s with currentValue := s.currentValue ++ d }
  | .endElement n => endElementStep convertTypes s n

/-- The initial state of `_fromXml` (source lines 97-111):
`definitions = [objectDefinition || {}]`, `result = {}`, `currentValue = ''`,
`currentType = ''`, empty stacks and namespace maps. -/
def initState (objectDefinition : JSValue) : FState :=
  { defs := [if jsTruthy objectDefinition then objectDefinition else .obj []]
    stack := [], orders := [], currentObject := [], currentValue := ""
    currentType := .str "", namespaces := [], definitionNamespaces := []
    definitionNamespaceUrls := [] }

/-- Recovers the root `result` object from a final state: for the balanced
event lists of well-formed documents the stack is empty and this is just
`currentObject`; open frames (which would make the real parser throw a
malformed-XML error before returning) are folded back for totality. -/
def flushStack (st : List (JSObj × String)) (cur : JSObj) : JSObj :=
  st.reverse.foldl (fun c pf => writeBack pf.1 pf.2 (.obj c)) cur

/-- `_fromXml(xml, objectDefinition, inlineAttributes, convertTypes)` over an
explicit event list. -/
def fromXmlEvents (events : List XmlEvent) (objectDefinition : JSValue)
    (inlineAttributes convertTypes : Bool) : JSValue :=
  let s := events.foldl (step inlineAttributes convertTypes) (initState objectDefinition)
  .obj (flushStack s.stack s.currentObject)

/-- The public `fromXml` entry point with its default options
(`inlineAttributes: true`, `convertTypes: true`; source lines 15-32). -/
def fromXml (events : List XmlEvent) (definition : JSValue) : JSValue :=
  fromXmlEvents events definition true true

/-! ## The XSD compiler (`_elementToDefinition` and helpers, source lines
484-831)

The compiler walks the schema's own parsed object tree (inline-attributes
mode, no type conversion, so every attribute value is a string).  JS errors
thrown during compilation are modelled by `Except` with one constructor per
`throw` site; `outOfFuel` is a modelling device only — the JS recursion is
unbounded and would loop forever on a cyclic `complexType` reference. -/

/-- The error taxonomy of the XSD compiler, one constructor per `throw`. -/
inductive XsdErr where
  /-- `Error('Type reference nested more than 3 levels')` (line 663). -/
  | typeNestingTooDeep : XsdErr
  /-- `Error('Unknown simpleType structure')` (lines 634, 712). -/
  | unknownSimpleType : XsdErr
  /-- `Error('Unknown element structure')` (line 657). -/
  | unknownElementStructure : XsdErr
  /-- `Error("Unknown XSD type '" + subXsdType)` (line 715). -/
  | unknownXsdType : String → XsdErr
  /-- `Error("Could not find type '…' in namespace '…'")` (lines 718-724). -/
  | couldNotFindType : String → String → XsdErr
  /-- `Error("Could not find namespace alias '…'")` (line 824). -/
  | couldNotFindNamespaceAlias : String → XsdErr
  /-- `Error('Unknown complexType sequence structure')` (line 785). -/
  | unknownComplexTypeSequence : XsdErr
  /-- A JS `TypeError` (property access/method call on `undefined`), e.g.
  `.replace` on a missing reverse-namespace entry (line 749). -/
  | jsTypeError : XsdErr
  /-- Modelling device: recursion fuel ran out (no JS counterpart). -/
  | outOfFuel : XsdErr
deriving Repr, DecidableEq

/-- `element.hasOwnProperty(k)` on a `JSValue`. -/
def hasOwnProp (v : JSValue) (k : String) : Bool :=
  match v with
  | .obj fs => hasOwn fs k
  | _ => false

/-- `Object.keys(v).length` (enumerable own properties: object keys, or
index keys of a string/array; primitives own none). -/
def objKeyCount : JSValue → Nat
  | .obj fs => fs.length
  | .str s => s.length
  | .arr xs => xs.length
  | .buf bs => bs.length
  | _ => 0

/-- `_extractAndAddNamespaces(element, originalNamespaces)` (source lines
571-582): copies the incoming map and adds every `$xmlns:…` attribute of the
node, keyed without the leading `$`. -/
def extractAndAddNamespaces (element : JSValue) (originalNamespaces : SMap) : SMap :=
  match element with
  | .obj fs =>
    fs.foldl
      (fun m kv =>
        if strStartsWith kv.1 "$xmlns:" ∧ 7 < strLength kv.1 then
          mapSet m (strDrop kv.1 1) (jsStringOf kv.2)
        else m)
      originalNamespaces
  | _ => originalNamespaces

/-- `_namespaceLookup(name, namespaces)` (source lines 817-831): resolves a
`alias:local` reference against `xmlns:`-prefixed keys, failing when the alias
is unknown; an unprefixed name gets the empty namespace. -/
def namespaceLookup (name : String) (namespaces : SMap) :
    Except XsdErr (String × String) :=
  match jsSplitChar ':' name with
  | [_] => .ok (name, "")
  | a :: b :: _ =>
    match mapGet namespaces ("xmlns:" ++ a) with
    | some url => .ok (b, url)
    | none => .error (.couldNotFindNamespaceAlias name)
  | [] => .ok (name, "")

/-- The XSD namespace URL. -/
def xsdNamespaceUrl : String := "http://www.w3.org/2001/XMLSchema"

/-- The ECMAScript decimal rendering of `Number.MAX_VALUE`, the value the
source feeds to `parseInt` for `maxOccurs="unbounded"` (line 756);
`parseInt` stops at the `.` and yields `1`. -/
def numberMaxValueString : String := "1.7976931348623157e+308"

/-- A `parseInt` result as a JS number value. -/
def numOrNan : Option Int → JSValue
  | some k => .num (k : Rat)
  | none => .nan

/-- JS `x > b` for a `parseInt` result `x`: false on `NaN`. -/
def parsedGt (x : Option Int) (b : Int) : Bool :=
  match x with
  | some k => b < k
  | none => false

/-- The `restriction`/`list` destructuring of a `simpleType` node, which the
source spells out twice with identical meaning (inline: lines 613-634; lookup
hit: lines 689-713): a `restriction` yields its `$base` and updates the
min/max length bounds from `length`/`maxLength`/`minLength` facets, a `list`
yields its `$itemType`, anything else throws.  (The inline copy calls
`parseInt` without the radix argument; both agree on plain decimal digit
strings, the only facet values evaluated here.) -/
def simpleTypeBase (node : JSValue) (maxLength minLength : Option Int) :
    Except XsdErr (JSValue × Option Int × Option Int) :=
  if jsTruthy (getProp node "restriction") then
    let r := getProp node "restriction"
    if jsTruthy (getProp r "length") then
      let v := jsParseInt (jsStringOf (getProp (getProp r "length") "$value"))
      .ok (getProp r "$base", v, v)
    else
      let maxL :=
        if jsTruthy (getProp r "maxLength") then
          jsParseInt (jsStringOf (getProp (getProp r "maxLength") "$value"))
        else maxLength
      let minL :=
        if jsTruthy (getProp r "minLength") then
          jsParseInt (jsStringOf (getProp (getProp r "minLength") "$value"))
        else minLength
      .ok (getProp r "$base", maxL, minL)
  else if jsTruthy (getProp node "list") then
    .ok (getProp (getProp node "list") "$itemType", maxLength, minLength)
  else .error .unknownSimpleType

/-- The outcome of the type-reference resolution loop (lines 660-728): either
the reference bottomed out at an XSD-namespace primitive, or it hit a
`complexType`/`element` entry which the caller compiles recursively (in the
source the recursion happens inside the loop body just before `break`; it is
hoisted to the caller here so that the loop itself is plain recursion on its
iteration budget). -/
inductive ResolveOutcome where
  | primitive : String → ResolveOutcome
  | hit : String → JSValue → ResolveOutcome
deriving Repr

/-- The `for (let i = 0; i <= 3; i++)` resolution loop (lines 661-727):
`steps` counts the remaining working iterations, starting at 3; reaching 0
corresponds to `i === 3` and throws `typeNestingTooDeep`.  Each iteration
resolves the current reference's namespace; the XSD namespace ends the loop
at a primitive, a `complexType`/`element` table hit ends it for recursive
compilation, and a `simpleType` hit substitutes its base type and loops. -/
def resolveTypeLoop : Nat → JSValue → Option Int → Option Int → JSObj → SMap →
    Except XsdErr (ResolveOutcome × Option Int × Option Int)
  | 0, _, _, _, _, _ => .error .typeNestingTooDeep
  | steps + 1, type, maxLength, minLength, typeLookupMap, elementNamespaces => do
    let tn ← namespaceLookup (jsStringOf type) elementNamespaces
    if tn.2 = xsdNamespaceUrl then
      pure (.primitive tn.1, maxLength, minLength)
    else
      let subElement := getKey typeLookupMap ("#" ++ "xmlns:" ++ jsStringOf type)
      let subXsdType := getKey typeLookupMap ("#" ++ "xmlns:" ++ jsStringOf type ++ "$xsdType")
      if jsTruthy subElement then
        if strictEqStr "complexType" subXsdType ∨ strictEqStr "element" subXsdType then
          pure (.hit (jsStringOf subXsdType) subElement, maxLength, minLength)
        else if strictEqStr "simpleType" subXsdType then
          let r ← simpleTypeBase subElement maxLength minLength
          resolveTypeLoop steps r.1 r.2.1 r.2.2 typeLookupMap elementNamespaces
        else .error (.unknownXsdType (jsStringOf subXsdType))
      else .error (.couldNotFindType tn.1 tn.2)

/-- `result[$name$namespace]` alias cleanup `.replace(/^xmlns:/, '')`. -/
def stripXmlnsPrefix (s : String) : String :=
  if strStartsWith s "xmlns:" then strDrop s 6 else s

/-- `_elementToDefinition(xsdType, element, targetNamespace,
elementFormQualified, attributeFormQualified, typeLookupMap, namespaces)`
(source lines 584-815).  Returns the definition-fragment object, or
`JSValue.undef` for the bare `return` of an unrecognised `complexType`
(line 790).  `fuel` bounds the recursion (see `XsdErr.outOfFuel`). -/
def elementToDefinition : Nat → String → JSValue → String → Bool → Bool → JSObj → SMap →
    Except XsdErr JSValue
  | 0, _, _, _, _, _, _, _ => .error .outOfFuel
  | fuel + 1, xsdType, element, targetNamespace, elementFormQualified,
      attributeFormQualified, typeLookupMap, namespaces => do
    let elementNamespaces := extractAndAddNamespaces element namespaces
    -- Make reverse lookup possible (lines 597-600)
    let namespaceToAlias : SMap :=
      elementNamespaces.foldl (fun m kv => mapSet m kv.2 kv.1) []
    let mut result : JSObj := []
    let mut subResult : JSValue := .undef
    let mut type : JSValue := .undef
    let mut maxLength : Option Int := some 0
    let mut minLength : Option Int := some 0
    if xsdType = "element" then
      let name := jsStringOf (getProp element "$name")
      -- Extract type (lines 609-658)
      if jsTruthy (getProp element "$type") then
        type := getProp element "$type"
      else if jsTruthy (getProp element "simpleType") then
        let r ← simpleTypeBase (getProp element "simpleType") maxLength minLength
        type := r.1
        maxLength := r.2.1
        minLength := r.2.2
      else if jsTruthy (getProp element "complexType") ∧
          (jsTruthy (getProp (getProp element "complexType") "all") ∨
           jsTruthy (getProp (getProp element "complexType") "sequence")) then
        type := .str "object"
        subResult ← elementToDefinition fuel "complexType" (getProp element "complexType")
          targetNamespace elementFormQualified attributeFormQualified typeLookupMap
          elementNamespaces
      else if hasOwnProp element "complexType" then
        type := .str "object"
        result := setKey result (name ++ "$type") (.str "empty")
      else if objKeyCount element = 0 then
        type := .str "object"
        result := setKey result (name ++ "$type") (.str "any")
      else
        throw .unknownElementStructure
      -- Type-reference resolution (lines 660-728);
      -- `!['object', 'any', 'empty'].includes(type)` compares with `===`
      if ¬ (strictEqStr "object" type ∨ strictEqStr "any" type ∨ strictEqStr "empty" type) then
        let r ← resolveTypeLoop 3 type maxLength minLength typeLookupMap elementNamespaces
        maxLength := r.2.1
        minLength := r.2.2
        match r.1 with
        | .primitive tname => result := setKey result (name ++ "$type") (.str tname)
        | .hit subXsdType subElement =>
          subResult ← elementToDefinition fuel subXsdType subElement targetNamespace
            elementFormQualified attributeFormQualified typeLookupMap elementNamespaces
      -- Merge the recursive fragment (lines 730-745)
      if jsTruthy subResult then
        if jsTruthy (getProp subResult "$type") then
          result := setKey result (name ++ "$type") (getProp subResult "$type")
        else
          result := setKey result name (.obj [])
          match subResult with
          | .obj fs =>
            for kv in fs do
              if strStartsWith kv.1 "$" then
                result := setKey result (name ++ kv.1) kv.2
              else
                result := setKey result name
                  (match getKey result name with
                   | .obj g => .obj (setKey g kv.1 kv.2)
                   | v => v)
          | _ => pure ()
      -- Save namespace (lines 747-752)
      if elementFormQualified then
        match mapGet namespaceToAlias targetNamespace with
        | some a => result := setKey result (name ++ "$namespace") (.str (stripXmlnsPrefix a))
        | none => throw .jsTypeError
      -- Cardinality (lines 754-769): for `maxOccurs="unbounded"` the source
      -- wraps `Number.MAX_VALUE` in `parseInt`, which reads its decimal
      -- rendering up to the `.`
      let maxOccurs : Option Int := jsParseInt
        (if strictEqStr "unbounded" (getProp element "$maxOccurs") then numberMaxValueString
         else if jsTruthy (getProp element "$maxOccurs") then
           jsStringOf (getProp element "$maxOccurs")
         else "0")
      let minOccurs : Option Int := jsParseInt
        (if jsTruthy (getProp element "$minOccurs") then
          jsStringOf (getProp element "$minOccurs")
         else "0")
      if parsedGt maxOccurs 1 then
        result := setKey result (name ++ "$type")
          (.arr [getKey result (name ++ "$type"), numOrNan minOccurs, numOrNan maxOccurs])
      -- Length bounds (lines 771-773); `NaN > 0` is false
      if parsedGt maxLength 0 then
        result := setKey result (name ++ "$length") (.arr [numOrNan minLength, numOrNan maxLength])
    else if xsdType = "complexType" then
      -- (lines 774-812)
      let mut elements : JSValue := .undef
      if jsTruthy (getProp element "all") then
        elements := getProp (getProp element "all") "element"
      else if jsTruthy (getProp element "sequence") then
        if jsTruthy (getProp (getProp element "sequence") "element") then
          elements := getProp (getProp element "sequence") "element"
        else if hasOwnProp (getProp element "sequence") "any" then
          elements := .arr []
          result := setKey result "$type" (.str "any")
        else
          throw .unknownComplexTypeSequence
        result := setKey result "$order" (.arr [])
      else
        return .undef
      let elementList : List JSValue :=
        match elements with
        | .arr xs => xs
        | v => [v]
      for subElement in elementList do
        let sr ← elementToDefinition fuel "element" subElement targetNamespace
          elementFormQualified attributeFormQualified typeLookupMap namespaces
        match sr with
        | .obj fs =>
          for kv in fs do
            result := setKey result kv.1 kv.2
        | _ => pure ()
        if hasOwn result "$order" then
          result := setKey result "$order"
            (match getKey result "$order" with
             | .arr xs => .arr (xs ++ [getProp subElement "$name"])
             | v => v)
    return .obj result

/-! ## Definition inference from an example tree (`_generateDefinitionXml`,
source lines 426-481) and sample generation (`generateSample` /
`_generateSample` / `_generateXsdTypeSample`, source lines 34-38 and 833-911)

Both walks are modelled with fuel; `none` conflates a JS crash
(`TypeError`/`RangeError`/unknown-type `Error`) with fuel exhaustion, and the
theorems below only ever rely on `none` at inputs where the JS code really
raises. -/

/-- The decimal digit character for `n < 10`. -/
def digitChar : Nat → Char
  | 0 => '0'
  | 1 => '1'
  | 2 => '2'
  | 3 => '3'
  | 4 => '4'
  | 5 => '5'
  | 6 => '6'
  | 7 => '7'
  | 8 => '8'
  | 9 => '9'
  | _ => '*'

/-- The digit list of `n` in decimal, most significant first; the structural
recursion runs on a fuel argument that the wrapper instantiates with `n + 1`
(ample, since a number has at most as many digits as its value plus one). -/
def natDigitsAux : Nat → Nat → List Char
  | 0, _ => []
  | fuel + 1, n =>
    if n < 10 then [digitChar n]
    else natDigitsAux fuel (n / 10) ++ [digitChar (n % 10)]

/-- The digit list of `n` in decimal, most significant first. -/
def natDigits (n : Nat) : List Char :=
  natDigitsAux (n + 1) n

/-- The standard decimal rendering of a natural number (what ECMAScript
`String(n)` produces for a small integer-valued number). -/
def natToString (n : Nat) : String :=
  String.mk (natDigits n)

/-- ECMAScript `String(v)` for an integer-valued number. -/
def intToString (i : Int) : String :=
  if i < 0 then "-" ++ natToString i.natAbs else natToString i.natAbs

/-- The fractional digits of a decimal rendering: `n` left-padded with zeros
to `len` digits. -/
def padDigits (n len : Nat) : List Char :=
  List.replicate (len - (natDigits n).length) '0' ++ natDigits n

/-- The plain (non-exponential) decimal rendering
`[-] intpart [. fracdigits]` that ECMAScript `Number::toString` produces for a
double whose shortest round-trip decimal form is this decimal; `len = 0`
renders without a dot (integers print without a fraction in JS). -/
def decToString (neg : Bool) (ip frac len : Nat) : String :=
  String.mk ((if neg then ['-'] else []) ++ natDigits ip ++
    (if len = 0 then [] else '.' :: padDigits frac len))

/-- The exact rational value of the decimal `[-] ip . frac`. -/
def decValue (neg : Bool) (ip frac len : Nat) : Rat :=
  (if neg then -1 else 1) * ((ip : Rat) + (frac : Rat) / (10 : Rat) ^ len)

/-- The text-family type names of the primitive table (coercion leaves them
unchanged via the final `else`; the two binary types decode to buffers and
are their own family). -/
def textTypeNames : List String :=
  ["anyURI", "language", "normalizedString", "string", "token"]

/-- `Object.keys(v)` as the JS walks use it: object keys in insertion order,
index keys for arrays, strings and buffers, none for other primitives, and a
`TypeError` (`none`) for `undefined`/`null`. -/
def jsObjectKeys : JSValue → Option (List String)
  | .undef => none
  | .null => none
  | .obj fs => some (fs.map (fun p => p.1))
  | .arr xs => some ((List.range xs.length).map natToString)
  | .str s => some ((List.range s.length).map natToString)
  | .buf bs => some ((List.range bs.length).map natToString)
  | _ => some []

/-- A canonical array-index string (`"0"`, `"17"`, …). -/
def decodeIndex (k : String) : Option Nat :=
  if ¬ k.toList.isEmpty ∧ k.toList.all Char.isDigit ∧ (k = "0" ∨ ¬ strStartsWith k "0") then
    some (digitsVal k.toList)
  else none

/-- Generic JS property read used by the walks, covering index access on
arrays, strings and buffers in addition to plain object keys. -/
def jsGetGeneric (v : JSValue) (k : String) : JSValue :=
  match v with
  | .obj fs => getKey fs k
  | .arr xs =>
    match decodeIndex k with
    | some i => xs.getD i .undef
    | none => .undef
  | .str s =>
    match decodeIndex k with
    | some i => if i < s.length then .str (String.mk [s.toList.getD i ' ']) else .undef
    | none => .undef
  | .buf bs =>
    match decodeIndex k with
    | some i => if i < bs.length then .num ((bs.getD i 0 : Nat) : Rat) else .undef
    | none => .undef
  | _ => (.undef)

/-- `s.indexOf(c)` for a one-character needle. -/
def jsIndexOfChar (s : String) (c : Char) : Int :=
  match s.toList.findIdx? (fun x => x = c) with
  | some i => (i : Int)
  | none => -1

/-- `/^\d+$/`. -/
def matchesIntShape (s : String) : Bool :=
  ¬ s.toList.isEmpty ∧ s.toList.all Char.isDigit

/-- `/^\d+\.\d+$/`. -/
def matchesFloatShape (s : String) : Bool :=
  match splitCharList '.' s.toList with
  | [a, b] => ¬ a.isEmpty ∧ a.all Char.isDigit ∧ ¬ b.isEmpty ∧ b.all Char.isDigit
  | _ => false

/-- A hexadecimal digit. -/
def isHexChar (c : Char) : Bool :=
  c.isDigit ∨ ('a' ≤ c ∧ c ≤ 'f') ∨ ('A' ≤ c ∧ c ≤ 'F')

/-- `/^[0-9A-Fa-f]{8,}$/`. -/
def matchesHexShape (s : String) : Bool :=
  8 ≤ s.toList.length ∧ s.toList.all isHexChar

/-- A base64 alphabet character. -/
def isB64Char (c : Char) : Bool :=
  c.isAlphanum ∨ c = '+' ∨ c = '/'

/-- The base64 shape regexp of line 468: groups of four alphabet characters,
the last group optionally padded with `=` or `==`. -/
def matchesBase64Shape (s : String) : Bool :=
  let l := s.toList
  (0 < l.length ∧ l.length % 4 = 0 : Bool) && (l.take (l.length - 2)).all isB64Char &&
  (match l.drop (l.length - 2) with
   | [a, b] =>
     ((isB64Char a ∧ isB64Char b) ∨ (isB64Char a ∧ b = '=') ∨ (a = '=' ∧ b = '=') : Bool)
   | _ => false)

/-- One key of the `_generateDefinitionXml` walk (the body of the
`Object.keys(obj).forEach` at source lines 429-477), processing `key` against
the state `(definition, obj)`; `recur` is the recursive walk applied to
member trees (the top-level walk passes itself with one unit of fuel spent).
See `generateDefinitionXml` for the `none` (JS crash) conventions. -/
def genDefXmlStep (recur : JSValue → Option (JSObj × JSValue))
    (guessBase64Binary : Bool) (st : JSObj × JSObj) (key : String) :
    Option (JSObj × JSObj) :=
  let definition := st.1
  let cur := st.2
  if 0 < jsIndexOfChar key '$' then
    some (setKey definition key (getKey cur key), cur)
  else
    match getKey cur key with
    | .arr xs =>
      let definition := setKey definition (key ++ "$type") (.arr [])
      if 0 < xs.length then
        match recur (.obj [(key, xs.getD 0 .undef)]) with
        | none => none
        | some sub =>
          let definition :=
            if jsTruthy (getKey sub.1 (key ++ "$type")) then
              setKey definition (key ++ "$type") (.arr [getKey sub.1 (key ++ "$type")])
            else if jsTruthy (getKey sub.1 key) then
              setKey definition key (getKey sub.1 key)
            else definition
          -- aliasing: a mutated object head is still referenced by the
          -- original array; a deleted (scalar) head only left the temporary
          -- wrapper, the array still holds it
          let newHead :=
            match getProp sub.2 key with
            | .undef => xs.getD 0 .undef
            | v => v
          some (definition, setKey cur key (.arr (newHead :: xs.drop 1)))
      else
        some (definition, cur)
    | .obj inner =>
      match recur (.obj inner) with
      | none => none
      | some sub => some (setKey definition key (.obj sub.1), setKey cur key sub.2)
    | .null => none
    | .buf _ => none
    | v =>
      match v with
      | .undef => some (definition, delKey cur key)
      | .str s =>
        if s = "" then some (definition, delKey cur key)
        else
          let t : String :=
            if s = "true" ∨ s = "false" then "boolean"
            else if matchesIntShape s then "int"
            else if matchesFloatShape s then "float"
            else if guessBase64Binary ∧ matchesHexShape s then "hexBinary"
            else if guessBase64Binary ∧ matchesBase64Shape s then "base64Binary"
            else "string"
          some (setKey definition (key ++ "$type") (.str t), delKey cur key)
      | _ => none

/-- `_generateDefinitionXml(obj, options)` (source lines 426-481), returning
the inferred definition together with the mutated input tree (`delete
obj[key]` for every undecorated scalar-valued key; nested objects, and object
heads of arrays, are mutated through the shared references).  The walk is
only entered on object trees — the public `generateDefinition('xml')` wrapper
always passes the (object-shaped) parse result or the caller's object tree.
`none` models the JS `TypeError` raised on `null` members (typeof
`'object'`, so the recursion calls `Object.keys(null)`), on non-string
scalars (no `.match` method), and on buffer members (their numeric elements
reach the scalar branch). -/
def generateDefinitionXml : Nat → JSValue → Bool → Option (JSObj × JSValue)
  | 0, _, _ => none
  | fuel + 1, o, guessBase64Binary =>
    match o with
    | .obj fields => do
      let r ← (fields.map (fun p => p.1)).foldlM
        (genDefXmlStep (fun v => generateDefinitionXml fuel v guessBase64Binary)
          guessBase64Binary)
        (([], fields) : JSObj × JSObj)
      return (r.1, .obj r.2)
    | _ => none

/-- `' '.repeat(length)`: the argument is converted with ToIntegerOrInfinity
(`NaN`/`undefined` → 0) and a negative count raises a `RangeError` (`none`). -/
def jsRepeatSpaces (length : JSValue) : Option String :=
  match length with
  | .num q => if q < 0 then none else some (String.mk (List.replicate q.floor.toNat ' '))
  | .nan => some ""
  | .undef => some ""
  | .null => some ""
  | .bool b => some (if b then " " else "")
  | _ => some ""

/-- `_generateXsdTypeSample(type, length)` (source lines 855-911): one
representative value per primitive type; unknown types throw. -/
def generateXsdTypeSample (type : JSValue) (length : JSValue) : Option JSValue :=
  if strictEqStr "boolean" type then some (.bool true)
  else if ["base64Binary", "hexBinary", "normalizedString", "string", "token"].any
      (fun t => strictEqStr t type) then
    (jsRepeatSpaces length).map .str
  else if strictEqStr "anyURI" type then some (.str "http://sample.com")
  else if strictEqStr "language" type then some (.str "en")
  else if ["byte", "decimal", "double", "float", "int", "integer", "long", "short",
           "unsignedByte", "unsignedInt", "unsignedLong", "unsignedShort"].any
      (fun t => strictEqStr t type) then some (.num 0)
  else if strictEqStr "negativeInteger" type then some (.num (-1))
  else if strictEqStr "nonNegativeInteger" type then some (.num 1)
  else if strictEqStr "nonPositiveInteger" type then some (.num (-1))
  else if strictEqStr "empty" type then some (.str "")
  else if strictEqStr "any" type then some (.obj [])
  else none

/-- `new Array(n).fill(v)`: an integral non-negative numeric argument sets the
length (a fractional or negative one raises a `RangeError`, as does `NaN`);
any non-number argument becomes the single element, overwritten by `fill`. -/
def jsNewArrayFill (n : JSValue) (v : JSValue) : Option JSValue :=
  match n with
  | .num q => if q.den = 1 ∧ 0 ≤ q.num then some (.arr (List.replicate q.num.toNat v)) else none
  | .nan => none
  | _ => some (.arr [v])

/-- `_generateSample(definition)` (source lines 833-853): walks `…$type`
entries (with their optional `…$length` bounds) and recurses into undecorated
object members.  `Object.keys` of an `undefined` or `null` definition throws
(`none`). -/
def generateSampleWalk (fuel : Nat) (definition : JSValue) : Option JSValue :=
  match fuel with
  | 0 => none
  | fuel + 1 => do
    let keys ← jsObjectKeys definition
    let result ← keys.foldlM
      (fun (result : JSObj) key => do
        if strEndsWith key "$type" then
          let keyName := strDropRight key 5
          let length : JSValue :=
            if jsTruthy (jsGetGeneric definition (keyName ++ "$length")) then
              jsGetGeneric definition (keyName ++ "$length")
            else .arr [.num 1, .num 1]
          match jsGetGeneric definition key with
          | .arr xs => do
            let value ← generateXsdTypeSample (xs.getD 0 .undef) (jsGetGeneric length "1")
            let filled ← jsNewArrayFill (xs.getD 2 .undef) value
            return setKey result keyName filled
          | v => do
            let value ← generateXsdTypeSample v (jsGetGeneric length "1")
            return setKey result keyName value
        else if jsIndexOfChar key '$' = -1 ∧ isTypeofObject (jsGetGeneric definition key) then do
          let sub ← generateSampleWalk fuel (jsGetGeneric definition key)
          return setKey result key sub
        else
          return result)
      ([] : JSObj)
    return .obj result

/-- The public `generateSample(rootName, definition)` (source lines 34-38):
`{ [rootName]: _generateSample(definition[rootName]) }`. -/
def generateSample (fuel : Nat) (rootName : String) (definition : JSObj) :
    Option JSValue := do
  let inner ← generateSampleWalk fuel (getKey definition rootName)
  return .obj [(rootName, inner)]

/-! ## Concrete scenario inputs used by the claim theorems -/

/-- Namespace map binding the conventional `xs` alias to the XSD namespace and
`tns` to a target namespace, as the compiler receives after collecting the
schema's `xmlns:*` attributes. -/
def xsdAliasNamespaces : SMap :=
  [("xmlns:xs", xsdNamespaceUrl), ("xmlns:tns", "urn:t")]

/-- The parsed node of
`<xs:element name="age" minOccurs="0" maxOccurs="unbounded"><xs:simpleType><xs:restriction base="xs:int"/></xs:simpleType></xs:element>`. -/
def ageUnboundedElement : JSValue :=
  .obj [("$name", .str "age"), ("$minOccurs", .str "0"), ("$maxOccurs", .str "unbounded"),
        ("simpleType", .obj [("restriction", .obj [("$base", .str "xs:int")])])]

/-- The same element with the numeric `maxOccurs="5"`. -/
def ageMaxFiveElement : JSValue :=
  .obj [("$name", .str "age"), ("$minOccurs", .str "0"), ("$maxOccurs", .str "5"),
        ("simpleType", .obj [("restriction", .obj [("$base", .str "xs:int")])])]

/-- A parsed `simpleType` node `<xs:restriction base="…"/>`. -/
def simpleTypeRestriction (base : String) : JSValue :=
  .obj [("restriction", .obj [("$base", .str base)])]

/-- A type lookup table with a three-`simpleType` reference chain
`tns:T1 → tns:T2 → tns:T3 → xs:int` (four resolution steps needed). -/
def chainLookupThree : JSObj :=
  [("#xmlns:tns:T1", simpleTypeRestriction "tns:T2"), ("#xmlns:tns:T1$xsdType", .str "simpleType"),
   ("#xmlns:tns:T2", simpleTypeRestriction "tns:T3"), ("#xmlns:tns:T2$xsdType", .str "simpleType"),
   ("#xmlns:tns:T3", simpleTypeRestriction "xs:int"), ("#xmlns:tns:T3$xsdType", .str "simpleType")]

/-- A two-`simpleType` chain `tns:T1 → tns:T2 → xs:int` (three resolution
steps, within the bound). -/
def chainLookupTwo : JSObj :=
  [("#xmlns:tns:T1", simpleTypeRestriction "tns:T2"), ("#xmlns:tns:T1$xsdType", .str "simpleType"),
   ("#xmlns:tns:T2", simpleTypeRestriction "xs:int"), ("#xmlns:tns:T2$xsdType", .str "simpleType")]

/-- A chain whose second step hits a `complexType` entry. -/
def chainLookupComplex : JSObj :=
  [("#xmlns:tns:T1", simpleTypeRestriction "tns:CT"), ("#xmlns:tns:T1$xsdType", .str "simpleType"),
   ("#xmlns:tns:CT",
    .obj [("sequence", .obj [("element", .obj [("$name", .str "x"), ("$type", .str "xs:string")])])]),
   ("#xmlns:tns:CT$xsdType", .str "complexType")]

/-- The parsed node of `<xs:element name="e" type="tns:T1"/>`. -/
def refElement : JSValue :=
  .obj [("$name", .str "e"), ("$type", .str "tns:T1")]

/-- A definition declaring the canonical child order `E$order = ["a","b"]`. -/
def orderDefinition : JSValue :=
  .obj [("E", .obj []), ("E$order", .arr [.str "a", .str "b"])]

/-- Events of `<E><a/><b/></E>`. -/
def orderEventsAB : List XmlEvent :=
  [.startElement "E" [], .startElement "a" [], .endElement "a",
   .startElement "b" [], .endElement "b", .endElement "E"]

/-- Events of `<E><b/><a/></E>`. -/
def orderEventsBA : List XmlEvent :=
  [.startElement "E" [], .startElement "b" [], .endElement "b",
   .startElement "a" [], .endElement "a", .endElement "E"]

/-- A definition binding the definition-declared alias `x` to `urn:x` and
declaring `b$namespace = "x"` inside `a`. -/
def namespaceMatchDefinition : JSValue :=
  .obj [("a$attributes", .obj [("xmlns:x", .str "urn:x")]),
        ("a", .obj [("b$namespace", .str "x")])]

/-- The same definition with the alias bound to a different URL `urn:y`. -/
def namespaceMismatchDefinition : JSValue :=
  .obj [("a$attributes", .obj [("xmlns:x", .str "urn:y")]),
        ("a", .obj [("b$namespace", .str "x")])]

/-- Events of `<a xmlns:ns="urn:x"><ns:b/></a>`. -/
def namespaceEvents : List XmlEvent :=
  [.startElement "a" [("xmlns:ns", "urn:x")], .startElement "ns:b" [],
   .endElement "ns:b", .endElement "a"]

/-- Events of `<p><n><c>x</c></n><n><c>y</c></n></p>`: two sibling `n`
elements, each a one-child object. -/
def siblingObjectEventsBoth : List XmlEvent :=
  [.startElement "p" [],
   .startElement "n" [], .startElement "c" [], .text "x", .endElement "c", .endElement "n",
   .startElement "n" [], .startElement "c" [], .text "y", .endElement "c", .endElement "n",
   .endElement "p"]

/-- Events of `<p><n><c>y</c></n></p>`: the second occurrence parsed alone. -/
def siblingObjectEventsSecond : List XmlEvent :=
  [.startElement "p" [],
   .startElement "n" [], .startElement "c" [], .text "y", .endElement "c", .endElement "n",
   .endElement "p"]

/-- Events of `<p><n>t1</n><n>t2</n></p>` for arbitrary texts. -/
def siblingLeafEvents (t1 t2 : String) : List XmlEvent :=
  [.startElement "p" [], .startElement "n" [], .text t1, .endElement "n",
   .startElement "n" [], .text t2, .endElement "n", .endElement "p"]

/-- Events of `<p><n>t</n></p>`. -/
def singleLeafEvents (t : String) : List XmlEvent :=
  [.startElement "p" [], .startElement "n" [], .text t, .endElement "n", .endElement "p"]

/-- A definition declaring `n` as array-typed. -/
def arrayTypedDefinition : JSValue :=
  .obj [("n$type", .arr [.str "string", .num 0, .num 2])]

/-! ## Claim theorems -/

theorem getKey_eq_undef_of_hasOwn_eq_false {o : JSObj} {k : String}
    (h : hasOwn o k = false) : getKey o k = .undef := by
  have hfind : o.find? (fun p => p.1 = k) = none := by
    rw [List.find?_eq_none]
    intro p hp hdec
    have htrue : hasOwn o k = true := by
      unfold hasOwn
      exact List.any_eq_true.mpr ⟨p, hp, hdec⟩
    rw [htrue] at h
    exact Bool.noConfusion h
  unfold getKey
  rw [hfind]

theorem splitCharList_of_not_contains (sep : Char) (l : List Char)
    (h : l.contains sep = false) : splitCharList sep l = [l] := by
  induction l with
  | nil => rfl
  | cons c cs ih =>
    rw [List.contains_cons, Bool.or_eq_false_iff] at h
    have hc : ¬ c = sep := by
      intro hcc
      subst hcc
      simpa using h.1
    unfold splitCharList
    rw [if_neg hc, ih h.2]

theorem jsSplitChar_of_not_contains (sep : Char) (s : String)
    (h : s.toList.contains sep = false) : jsSplitChar sep s = [s] := by
  cases s with
  | mk l =>
    unfold jsSplitChar
    rw [splitCharList_of_not_contains sep _ h]
    rfl

/-- Splitting a `tns:`-qualified reference whose local part has no colon. -/
theorem jsSplitChar_alias_colon (s : String) (h : s.toList.contains ':' = false) :
    jsSplitChar ':' ("tns:" ++ s) = ["tns", s] := by
  cases s with
  | mk l =>
    unfold jsSplitChar
    have h1 : ("tns:" ++ String.mk l).toList = 't' :: 'n' :: 's' :: ':' :: l := rfl
    rw [h1]
    have h2 : splitCharList ':' ('t' :: 'n' :: 's' :: ':' :: l) =
        ['t', 'n', 's'] :: splitCharList ':' l := rfl
    rw [h2, splitCharList_of_not_contains ':' l h]
    rfl

theorem append_alias_toList (s : String) :
    ("tns:" ++ s).toList = 't' :: 'n' :: 's' :: ':' :: s.toList := by
  cases s
  rfl

theorem jsTruthy_append_alias (s : String) : jsTruthy (.str ("tns:" ++ s)) = true := by
  have : ¬ ("tns:" ++ s) = "" := by
    intro h
    simpa [append_alias_toList] using congrArg String.toList h
  simp [jsTruthy, this]

theorem strictEqStr_object_append_alias (s : String) :
    strictEqStr "object" (.str ("tns:" ++ s)) = false := by
  have : ¬ ("object" : String) = "tns:" ++ s := by
    intro h
    simpa [append_alias_toList] using congrArg String.toList h
  simp [strictEqStr, this]

theorem strictEqStr_any_append_alias (s : String) :
    strictEqStr "any" (.str ("tns:" ++ s)) = false := by
  have : ¬ ("any" : String) = "tns:" ++ s := by
    intro h
    simpa [append_alias_toList] using congrArg String.toList h
  simp [strictEqStr, this]

theorem strictEqStr_empty_append_alias (s : String) :
    strictEqStr "empty" (.str ("tns:" ++ s)) = false := by
  have : ¬ ("empty" : String) = "tns:" ++ s := by
    intro h
    simpa [append_alias_toList] using congrArg String.toList h
  simp [strictEqStr, this]

theorem bindOkExcept {ε α β : Type} (a : α) (f : α → Except ε β) :
    ((Except.ok a : Except ε α) >>= f) = f a :=
  rfl

/-- Resolving a `tns:`-qualified reference against a map binding the alias. -/
theorem namespaceLookup_alias (S u : String) (ns : SMap)
    (hc : S.toList.contains ':' = false)
    (hns : mapGet ns "xmlns:tns" = some u) :
    namespaceLookup ("tns:" ++ S) ns = .ok (S, u) := by
  unfold namespaceLookup
  rw [jsSplitChar_alias_colon S hc]
  show (match mapGet ns ("xmlns:" ++ "tns") with
        | some url => Except.ok (S, url)
        | none => Except.error (XsdErr.couldNotFindNamespaceAlias ("tns:" ++ S))) =
    Except.ok (S, u)
  rw [show ("xmlns:" ++ "tns" : String) = "xmlns:tns" from rfl, hns]

/-- One `simpleType` indirection of the resolution loop: a non-XSD reference
whose table entry is a `simpleType` restriction substitutes the restriction's
base and consumes one iteration. -/
theorem resolveTypeLoop_simpleType_step (steps : Nat) (S u base : String)
    (maxL minL : Option Int) (L : JSObj) (ns : SMap)
    (hc : S.toList.contains ':' = false)
    (hns : mapGet ns "xmlns:tns" = some u)
    (hu : ¬ u = xsdNamespaceUrl)
    (hL : getKey L ("#" ++ "xmlns:" ++ ("tns:" ++ S)) = simpleTypeRestriction base)
    (hT : getKey L ("#" ++ "xmlns:" ++ ("tns:" ++ S) ++ "$xsdType") = .str "simpleType") :
    resolveTypeLoop (steps + 1) (.str ("tns:" ++ S)) maxL minL L ns =
      resolveTypeLoop steps (.str base) maxL minL L ns := by
  conv_lhs => rw [resolveTypeLoop]
  simp only [jsStringOf, namespaceLookup_alias S u ns hc hns, bindOkExcept]
  rw [if_neg (show ¬ ((S, u).2 = xsdNamespaceUrl) from hu), hL, hT]
  simp only [simpleTypeRestriction]
  rfl

/-- Claim C1 (amended): `_convertFromXsdType` never fails — for every type
name outside its dispatch lists (boolean, the float and integer families, the
two binary types) and without the nullable suffix, coercion returns the raw
text unchanged; the `UnknownTypeError` of the spec lives in the type-kind
table `_xsdTypeLookup` (used by serialization and sample generation), which
does reject `"frobnicate"`. -/
theorem C1_unknown_type_coerces_to_identity (t v : String)
    (hq : strEndsWith t "?" = false)
    (hb : ¬ t = "boolean")
    (hf : floatTypeNames.contains t = false)
    (hi : integerTypeNames.contains t = false)
    (h64 : ¬ t = "base64Binary")
    (hhex : ¬ t = "hexBinary") :
    convertFromXsdType (.str t) v = .str v ∧
    xsdTypeLookup "frobnicate" = .error "Unknown XSD type 'frobnicate'" := by
  refine ⟨?_, rfl⟩
  rw [show convertFromXsdType (.str t) v =
      (if strEndsWith t "?" = true then
        (if matchesOnlyWhitespace v = true then .null
         else convertDispatch (strDropRight t 1) v)
       else convertDispatch t v) from rfl]
  rw [hq]
  simp only [Bool.false_eq_true, if_false]
  unfold convertDispatch
  rw [if_neg hb, hf, hi]
  simp only [Bool.false_eq_true, if_false, if_neg h64, if_neg hhex]

theorem C1_unknown_type_coerces_to_identity_witness :
    convertFromXsdType (.str "frobnicate") "hello" = .str "hello" :=
  (C1_unknown_type_coerces_to_identity "frobnicate" "hello" rfl (by decide) rfl rfl
    (by decide) (by decide)).1

/-- Claim C10 (amended): `generateSample(rootName, definition)` fails
(`Object.keys` raises a `TypeError`) exactly when `definition[rootName]` is
`undefined` or `null` — in particular for every `rootName` that is not a key
of the definition — but it does not require an object: a number- or
boolean-valued (or `NaN`-valued) entry yields `{rootName: {}}` (and so does a
string-valued one, see the counterexample theorem). -/
theorem C10_generate_sample_failure_condition :
    (∀ (fuel : Nat) (rootName : String) (definition : JSObj),
      hasOwn definition rootName = false →
      generateSample fuel rootName definition = none) ∧
    (∀ (fuel : Nat) (rootName : String) (definition : JSObj),
      getKey definition rootName = .null →
      generateSample fuel rootName definition = none) ∧
    (∀ (fuel : Nat) (rootName : String) (definition : JSObj) (q : Rat),
      getKey definition rootName = .num q →
      generateSample (fuel + 1) rootName definition =
        some (.obj [(rootName, .obj [])])) ∧
    (∀ (fuel : Nat) (rootName : String) (definition : JSObj) (b : Bool),
      getKey definition rootName = .bool b →
      generateSample (fuel + 1) rootName definition =
        some (.obj [(rootName, .obj [])])) := by
  refine ⟨fun fuel rootName definition h => ?_, fun fuel rootName definition h => ?_,
    fun fuel rootName definition q h => ?_, fun fuel rootName definition b h => ?_⟩
  · rw [generateSample, getKey_eq_undef_of_hasOwn_eq_false h]
    cases fuel <;> rfl
  · rw [generateSample, h]
    cases fuel <;> rfl
  · rw [generateSample, h]
    rfl
  · rw [generateSample, h]
    rfl

theorem C10_generate_sample_failure_condition_witness :
    hasOwn [(("present", JSValue.obj []) : String × JSValue)] "missing" = false ∧
    generateSample 3 "missing" [("present", .obj [])] = none ∧
    generateSample 3 "r" [("r", .num 5)] = some (.obj [("r", .obj [])]) :=
  ⟨rfl, C10_generate_sample_failure_condition.1 3 "missing" [("present", .obj [])] rfl,
   C10_generate_sample_failure_condition.2.2.1 2 "r" [("r", .num 5)] 5 rfl⟩

theorem bindErrExcept {ε α β : Type} (e : ε) (f : α → Except ε β) :
    ((Except.error e : Except ε α) >>= f) = .error e :=
  rfl

/-- A three-`simpleType` reference chain exhausts the three loop iterations:
the fourth needed resolution step is the `i === 3` throw. -/
theorem resolveTypeLoop_chain_overflow (S1 S2 S3 u b : String)
    (maxL minL : Option Int) (L : JSObj)
    (hc1 : S1.toList.contains ':' = false)
    (hc2 : S2.toList.contains ':' = false)
    (hc3 : S3.toList.contains ':' = false)
    (hu : ¬ u = xsdNamespaceUrl)
    (hL1 : getKey L ("#" ++ "xmlns:" ++ ("tns:" ++ S1)) = simpleTypeRestriction ("tns:" ++ S2))
    (hT1 : getKey L ("#" ++ "xmlns:" ++ ("tns:" ++ S1) ++ "$xsdType") = .str "simpleType")
    (hL2 : getKey L ("#" ++ "xmlns:" ++ ("tns:" ++ S2)) = simpleTypeRestriction ("tns:" ++ S3))
    (hT2 : getKey L ("#" ++ "xmlns:" ++ ("tns:" ++ S2) ++ "$xsdType") = .str "simpleType")
    (hL3 : getKey L ("#" ++ "xmlns:" ++ ("tns:" ++ S3)) = simpleTypeRestriction b)
    (hT3 : getKey L ("#" ++ "xmlns:" ++ ("tns:" ++ S3) ++ "$xsdType") = .str "simpleType") :
    resolveTypeLoop 3 (.str ("tns:" ++ S1)) maxL minL L [("xmlns:tns", u)] =
      .error .typeNestingTooDeep := by
  rw [resolveTypeLoop_simpleType_step 2 S1 u ("tns:" ++ S2) maxL minL L
        [("xmlns:tns", u)] hc1 rfl hu hL1 hT1,
    resolveTypeLoop_simpleType_step 1 S2 u ("tns:" ++ S3) maxL minL L
        [("xmlns:tns", u)] hc2 rfl hu hL2 hT2,
    resolveTypeLoop_simpleType_step 0 S3 u b maxL minL L
        [("xmlns:tns", u)] hc3 rfl hu hL3 hT3]
  rfl

/-- Claim C7: the XSD compiler's type-reference resolution performs at most 3
indirections: an element whose reference chain passes through three
`simpleType` declarations and still needs a fourth resolution step fails with
`TypeNestingTooDeepError` (for every such chain, quantified over the local
names, the target URL and the rest of the lookup table); a chain that resolves
within the bound terminates at an XSD-namespace primitive
(`tns:T1 → tns:T2 → xs:int` compiles to `{e$type: "int"}`), and a
`complexType` hit ends the loop by recursing into that type. -/
theorem C7_type_nesting_bound (fuel : Nat) (S1 S2 S3 tgt u b : String)
    (efq afq : Bool) (L : JSObj)
    (hc1 : S1.toList.contains ':' = false)
    (hc2 : S2.toList.contains ':' = false)
    (hc3 : S3.toList.contains ':' = false)
    (hu : ¬ u = xsdNamespaceUrl)
    (hL1 : getKey L ("#" ++ "xmlns:" ++ ("tns:" ++ S1)) = simpleTypeRestriction ("tns:" ++ S2))
    (hT1 : getKey L ("#" ++ "xmlns:" ++ ("tns:" ++ S1) ++ "$xsdType") = .str "simpleType")
    (hL2 : getKey L ("#" ++ "xmlns:" ++ ("tns:" ++ S2)) = simpleTypeRestriction ("tns:" ++ S3))
    (hT2 : getKey L ("#" ++ "xmlns:" ++ ("tns:" ++ S2) ++ "$xsdType") = .str "simpleType")
    (hL3 : getKey L ("#" ++ "xmlns:" ++ ("tns:" ++ S3)) = simpleTypeRestriction b)
    (hT3 : getKey L ("#" ++ "xmlns:" ++ ("tns:" ++ S3) ++ "$xsdType") = .str "simpleType") :
    elementToDefinition (fuel + 1) "element"
        (.obj [("$name", .str "e"), ("$type", .str ("tns:" ++ S1))]) tgt efq afq L
        [("xmlns:tns", u)] = .error .typeNestingTooDeep ∧
    elementToDefinition 9 "element" refElement "urn:t" false false chainLookupTwo
      xsdAliasNamespaces = .ok (.obj [("e$type", .str "int")]) ∧
    elementToDefinition 9 "element" refElement "urn:t" false false chainLookupComplex
      xsdAliasNamespaces =
      .ok (.obj [("e", .obj [("x$type", .str "string")]), ("e$order", .arr [.str "x"])]) := by
  refine ⟨?_, rfl, rfl⟩
  have hchain := resolveTypeLoop_chain_overflow S1 S2 S3 u b (some 0) (some 0) L
    hc1 hc2 hc3 hu hL1 hT1 hL2 hT2 hL3 hT3
  have hne0 : ¬ ("tns:" ++ S1) = "" := by
    intro h
    simpa [append_alias_toList] using congrArg String.toList h
  have hne1 : ¬ ("object" : String) = "tns:" ++ S1 := by
    intro h
    simpa [append_alias_toList] using congrArg String.toList h
  have hne2 : ¬ ("any" : String) = "tns:" ++ S1 := by
    intro h
    simpa [append_alias_toList] using congrArg String.toList h
  have hne3 : ¬ ("empty" : String) = "tns:" ++ S1 := by
    intro h
    simpa [append_alias_toList] using congrArg String.toList h
  simp [elementToDefinition, extractAndAddNamespaces, strStartsWith, strLength, strDrop,
    getProp, getKey, jsTruthy, strictEqStr, hasOwnProp, hasOwn, objKeyCount,
    hne0, hne1, hne2, hne3, hchain, bindErrExcept, List.find?]

theorem C7_type_nesting_bound_witness :
    elementToDefinition 9 "element"
        (.obj [("$name", .str "e"), ("$type", .str ("tns:" ++ "T1"))]) "urn:t" false false
        chainLookupThree [("xmlns:tns", "urn:t")] = .error .typeNestingTooDeep :=
  (C7_type_nesting_bound 8 "T1" "T2" "T3" "urn:t" "urn:t" "xs:int" false false
    chainLookupThree rfl rfl rfl (by decide) rfl rfl rfl rfl rfl rfl).1

theorem digitChar_isDigit {n : Nat} (h : n < 10) : (digitChar n).isDigit = true := by
  interval_cases n <;> rfl

theorem digitChar_val {n : Nat} (h : n < 10) : (digitChar n).toNat - 48 = n := by
  interval_cases n <;> rfl

theorem foldl_digits_acc (l : List Char) :
    ∀ acc : Nat, l.foldl (fun a c => a * 10 + (c.toNat - 48)) acc =
      acc * 10 ^ l.length + l.foldl (fun a c => a * 10 + (c.toNat - 48)) 0 := by
  induction l with
  | nil => intro acc; simp
  | cons c cs ih =>
    intro acc
    simp only [List.foldl_cons, List.length_cons]
    rw [ih (acc * 10 + (c.toNat - 48)), ih (0 * 10 + (c.toNat - 48))]
    ring

theorem digitsVal_append (a b : List Char) :
    digitsVal (a ++ b) = digitsVal a * 10 ^ b.length + digitsVal b := by
  unfold digitsVal
  rw [List.foldl_append, foldl_digits_acc b (a.foldl _ 0)]

theorem natDigitsAux_spec (fuel : Nat) :
    ∀ n, n < fuel →
      digitsVal (natDigitsAux fuel n) = n ∧ natDigitsAux fuel n ≠ [] ∧
      (natDigitsAux fuel n).all Char.isDigit = true := by
  induction fuel with
  | zero => intro n h; omega
  | succ m ih =>
    intro n h
    unfold natDigitsAux
    by_cases h10 : n < 10
    · rw [if_pos h10]
      refine ⟨?_, by simp, by simp [digitChar_isDigit h10]⟩
      simp [digitsVal, digitChar_val h10]
    · rw [if_neg h10]
      have hdiv : n / 10 < m := by omega
      obtain ⟨hv, hne, hall⟩ := ih (n / 10) hdiv
      refine ⟨?_, by simp, ?_⟩
      · rw [digitsVal_append, hv]
        have : digitsVal [digitChar (n % 10)] = n % 10 := by
          simp [digitsVal, digitChar_val (Nat.mod_lt n (by norm_num))]
        rw [this]
        simp only [List.length_singleton]
        omega
      · rw [List.all_append, hall]
        simp [digitChar_isDigit (Nat.mod_lt n (by norm_num : (0:Nat) < 10))]

theorem natDigits_val (n : Nat) : digitsVal (natDigits n) = n :=
  (natDigitsAux_spec (n + 1) n (Nat.lt_succ_self n)).1

theorem natDigits_ne_nil (n : Nat) : natDigits n ≠ [] :=
  (natDigitsAux_spec (n + 1) n (Nat.lt_succ_self n)).2.1

theorem natDigits_all_digits (n : Nat) : (natDigits n).all Char.isDigit = true :=
  (natDigitsAux_spec (n + 1) n (Nat.lt_succ_self n)).2.2

theorem natDigitsAux_length_le (fuel : Nat) :
    ∀ n len, n < fuel → n < 10 ^ len → 1 ≤ len → (natDigitsAux fuel n).length ≤ len := by
  induction fuel with
  | zero => intro n len h; omega
  | succ m ih =>
    intro n len h hlen h1
    unfold natDigitsAux
    by_cases h10 : n < 10
    · rw [if_pos h10]
      simpa using h1
    · rw [if_neg h10]
      have hlen2 : 2 ≤ len := by
        by_contra hc
        have : len = 1 := by omega
        subst this
        simp at hlen
        omega
      have hdivlt : n / 10 < 10 ^ (len - 1) := by
        rw [Nat.div_lt_iff_lt_mul (by norm_num : (0:Nat) < 10)]
        have : (10 : Nat) ^ (len - 1) * 10 = 10 ^ len := by
          rw [← pow_succ]
          congr 1
          omega
        omega
      have := ih (n / 10) (len - 1) (by omega) hdivlt (by omega)
      simp only [List.length_append, List.length_singleton]
      omega

theorem natDigits_length_le {n len : Nat} (h : n < 10 ^ len) (h1 : 1 ≤ len) :
    (natDigits n).length ≤ len :=
  natDigitsAux_length_le (n + 1) n len (Nat.lt_succ_self n) h h1

theorem padDigits_length {n len : Nat} (h : n < 10 ^ len) (h1 : 1 ≤ len) :
    (padDigits n len).length = len := by
  unfold padDigits
  have := natDigits_length_le h h1
  simp only [List.length_append, List.length_replicate]
  omega

theorem padDigits_all_digits (n len : Nat) : (padDigits n len).all Char.isDigit = true := by
  unfold padDigits
  rw [List.all_append, natDigits_all_digits]
  have : (List.replicate (len - (natDigits n).length) '0').all Char.isDigit = true := by
    rw [List.all_eq_true]
    intro c hc
    rw [List.eq_of_mem_replicate hc]
    rfl
  rw [this]
  rfl

theorem digitsVal_replicate_zero (k : Nat) : digitsVal (List.replicate k '0') = 0 := by
  induction k with
  | zero => rfl
  | succ m ih =>
    have : List.replicate (m + 1) '0' = '0' :: List.replicate m '0' := rfl
    rw [this]
    unfold digitsVal at ih ⊢
    simpa using ih

theorem padDigits_val (n len : Nat) : digitsVal (padDigits n len) = n := by
  unfold padDigits
  rw [digitsVal_append, digitsVal_replicate_zero, natDigits_val]
  ring

theorem not_ws_of_isDigit {c : Char} (h : c.isDigit = true) : jsIsWhitespace c = false := by
  unfold jsIsWhitespace
  rw [decide_eq_false_iff_not]
  rintro (rfl | rfl | rfl | rfl | rfl | rfl) <;> exact absurd h (by decide)

theorem takeWhile_all_append (p : Char → Bool) (l r : List Char) (hl : l.all p = true)
    (hr : match r with | [] => True | c :: _ => p c = false) :
    (l ++ r).takeWhile p = l := by
  induction l with
  | nil =>
    simp only [List.nil_append]
    cases r with
    | nil => rfl
    | cons c cs => simp [List.takeWhile_cons, hr]
  | cons c cs ih =>
    rw [List.all_cons, Bool.and_eq_true] at hl
    simp [List.cons_append, List.takeWhile_cons, hl.1, ih hl.2]

theorem dropWhile_all_append (p : Char → Bool) (l r : List Char) (hl : l.all p = true)
    (hr : match r with | [] => True | c :: _ => p c = false) :
    (l ++ r).dropWhile p = r := by
  induction l with
  | nil =>
    simp only [List.nil_append]
    cases r with
    | nil => rfl
    | cons c cs => simp [List.dropWhile_cons, hr]
  | cons c cs ih =>
    rw [List.all_cons, Bool.and_eq_true] at hl
    simp [List.cons_append, List.dropWhile_cons, hl.1, ih hl.2]

theorem takeWhile_of_all (p : Char → Bool) (l : List Char) (h : l.all p = true) :
    l.takeWhile p = l := by
  have := takeWhile_all_append p l [] h trivial
  simpa using this

theorem dropWhile_of_all (p : Char → Bool) (l : List Char) (h : l.all p = true) :
    l.dropWhile p = [] := by
  have := dropWhile_all_append p l [] h trivial
  simpa using this

theorem sign_of_digit {c : Char} (h : c.isDigit = true) :
    (¬ c = '-') ∧ (¬ c = '+') ∧ (¬ c = '.') ∧ jsIsWhitespace c = false := by
  refine ⟨?_, ?_, ?_, not_ws_of_isDigit h⟩ <;>
    · rintro rfl
      exact absurd h (by decide)

/-- `parseInt` on a plain digit rendering. -/
theorem jsParseInt_digits (l : List Char) (hne : l ≠ []) (hall : l.all Char.isDigit = true) :
    jsParseInt (String.mk l) = some ((digitsVal l : Int)) := by
  obtain ⟨c, cs, rfl⟩ := List.exists_cons_of_ne_nil hne
  rw [List.all_cons, Bool.and_eq_true] at hall
  obtain ⟨hm, hp, _, hw⟩ := sign_of_digit hall.1
  unfold jsParseInt
  have h1 : (String.mk (c :: cs)).toList = c :: cs := rfl
  rw [h1]
  simp only [List.dropWhile_cons, hw, Bool.false_eq_true, if_false, if_neg hm, if_neg hp]
  rw [takeWhile_of_all Char.isDigit (c :: cs) (by simp [hall.1, hall.2])]
  simp

/-- `parseInt` on a sign-prefixed digit rendering. -/
theorem jsParseInt_neg_digits (l : List Char) (hne : l ≠ [])
    (hall : l.all Char.isDigit = true) :
    jsParseInt (String.mk ('-' :: l)) = some (-(digitsVal l : Int)) := by
  have h0 : jsParseInt (String.mk ('-' :: l)) =
      (if (l.takeWhile Char.isDigit).isEmpty = true then none
       else some ((-1 : Int) * (digitsVal (l.takeWhile Char.isDigit) : Int))) := rfl
  rw [h0, takeWhile_of_all Char.isDigit l hall]
  obtain ⟨c, cs, rfl⟩ := List.exists_cons_of_ne_nil hne
  simp

theorem jsParseInt_intToString (v : Int) : jsParseInt (intToString v) = some v := by
  unfold intToString
  by_cases hv : v < 0
  · rw [if_pos hv]
    have h1 : ("-" ++ natToString v.natAbs) = String.mk ('-' :: natDigits v.natAbs) := by
      unfold natToString
      rfl
    rw [h1, jsParseInt_neg_digits _ (natDigits_ne_nil _) (natDigits_all_digits _),
      natDigits_val]
    congr 1
    omega
  · rw [if_neg hv]
    unfold natToString
    rw [jsParseInt_digits _ (natDigits_ne_nil _) (natDigits_all_digits _), natDigits_val]
    congr 1
    omega

/-- `parseFloat` on a plain (dot-free) digit rendering. -/
theorem jsParseFloat_digits (l : List Char) (hne : l ≠ [])
    (hall : l.all Char.isDigit = true) :
    jsParseFloat (String.mk l) = some ((digitsVal l : Rat)) := by
  obtain ⟨c, cs, rfl⟩ := List.exists_cons_of_ne_nil hne
  have hall2 := hall
  rw [List.all_cons, Bool.and_eq_true] at hall2
  obtain ⟨hm, hp, hd, hw⟩ := sign_of_digit hall2.1
  have hws : (c :: cs).dropWhile jsIsWhitespace = c :: cs := by
    simp [List.dropWhile_cons, hw]
  unfold jsParseFloat
  rw [show (String.mk (c :: cs)).toList = c :: cs from rfl]
  simp only [hws, if_neg hm, if_neg hp]
  rw [takeWhile_of_all Char.isDigit (c :: cs) hall, dropWhile_of_all Char.isDigit (c :: cs) hall]
  simp [digitsVal]

/-- `parseFloat` on a sign-prefixed digit rendering. -/
theorem jsParseFloat_neg_digits (l : List Char) (hne : l ≠ [])
    (hall : l.all Char.isDigit = true) :
    jsParseFloat (String.mk ('-' :: l)) = some (-(digitsVal l : Rat)) := by
  have h0 : jsParseFloat (String.mk ('-' :: l)) =
      (let ip := l.takeWhile Char.isDigit
       let cs1 := l.dropWhile Char.isDigit
       let fpp : List Char × List Char :=
         match cs1 with
         | [] => ([], cs1)
         | c :: r =>
           if c = '.' then (r.takeWhile Char.isDigit, r.dropWhile Char.isDigit) else ([], cs1)
       if ip.isEmpty = true ∧ fpp.1.isEmpty = true then none
       else
         let mant : Rat := (digitsVal ip : Rat) + (digitsVal fpp.1 : Rat) / (10 : Rat) ^ fpp.1.length
         let expPart : Rat :=
           match fpp.2 with
           | [] => 1
           | c :: r =>
             if c = 'e' ∨ c = 'E' then
               let es : Int × List Char :=
                 match r with
                 | [] => (1, [])
                 | d :: r3 =>
                   if d = '-' then (-1, r3) else if d = '+' then (1, r3) else (1, d :: r3)
               let eds := es.2.takeWhile Char.isDigit
               if eds.isEmpty then 1 else (10 : Rat) ^ (es.1 * (digitsVal eds : Int))
             else 1
         some ((-1 : Rat) * mant * expPart)) := rfl
  rw [h0]
  simp only [takeWhile_of_all Char.isDigit l hall, dropWhile_of_all Char.isDigit l hall]
  obtain ⟨c, cs, rfl⟩ := List.exists_cons_of_ne_nil hne
  simp [digitsVal]

/-- `parseFloat` on a digits-dot-digits rendering. -/
theorem jsParseFloat_frac_digits (a b : List Char) (hane : a ≠ [])
    (halla : a.all Char.isDigit = true) (hallb : b.all Char.isDigit = true) :
    jsParseFloat (String.mk (a ++ ('.' :: b))) =
      some ((digitsVal a : Rat) + (digitsVal b : Rat) / (10 : Rat) ^ b.length) := by
  obtain ⟨c, cs, rfl⟩ := List.exists_cons_of_ne_nil hane
  have hall2 := halla
  rw [List.all_cons, Bool.and_eq_true] at hall2
  obtain ⟨hm, hp, hd, hw⟩ := sign_of_digit hall2.1
  have hws : (c :: (cs ++ ('.' :: b))).dropWhile jsIsWhitespace = c :: (cs ++ ('.' :: b)) := by
    simp [List.dropWhile_cons, hw]
  unfold jsParseFloat
  rw [show (String.mk ((c :: cs) ++ ('.' :: b))).toList = c :: (cs ++ ('.' :: b)) from rfl]
  simp only [hws, if_neg hm, if_neg hp]
  rw [show (c :: (cs ++ ('.' :: b))) = ((c :: cs) ++ ('.' :: b)) from rfl,
    takeWhile_all_append Char.isDigit (c :: cs) ('.' :: b) halla rfl,
    dropWhile_all_append Char.isDigit (c :: cs) ('.' :: b) halla rfl]
  simp only [reduceIte, takeWhile_of_all Char.isDigit b hallb,
    dropWhile_of_all Char.isDigit b hallb]
  simp

/-- `parseFloat` on a negative digits-dot-digits rendering. -/
theorem jsParseFloat_neg_frac_digits (a b : List Char) (hane : a ≠ [])
    (halla : a.all Char.isDigit = true) (hallb : b.all Char.isDigit = true) :
    jsParseFloat (String.mk ('-' :: (a ++ ('.' :: b)))) =
      some (-((digitsVal a : Rat) + (digitsVal b : Rat) / (10 : Rat) ^ b.length)) := by
  have h0 : jsParseFloat (String.mk ('-' :: (a ++ ('.' :: b)))) =
      (let l := a ++ ('.' :: b)
       let ip := l.takeWhile Char.isDigit
       let cs1 := l.dropWhile Char.isDigit
       let fpp : List Char × List Char :=
         match cs1 with
         | [] => ([], cs1)
         | c :: r =>
           if c = '.' then (r.takeWhile Char.isDigit, r.dropWhile Char.isDigit) else ([], cs1)
       if ip.isEmpty = true ∧ fpp.1.isEmpty = true then none
       else
         let mant : Rat := (digitsVal ip : Rat) + (digitsVal fpp.1 : Rat) / (10 : Rat) ^ fpp.1.length
         let expPart : Rat :=
           match fpp.2 with
           | [] => 1
           | c :: r =>
             if c = 'e' ∨ c = 'E' then
               let es : Int × List Char :=
                 match r with
                 | [] => (1, [])
                 | d :: r3 =>
                   if d = '-' then (-1, r3) else if d = '+' then (1, r3) else (1, d :: r3)
               let eds := es.2.takeWhile Char.isDigit
               if eds.isEmpty then 1 else (10 : Rat) ^ (es.1 * (digitsVal eds : Int))
             else 1
         some ((-1 : Rat) * mant * expPart)) := rfl
  rw [h0]
  simp only [takeWhile_all_append Char.isDigit a ('.' :: b) halla rfl,
    dropWhile_all_append Char.isDigit a ('.' :: b) halla rfl]
  simp only [reduceIte, takeWhile_of_all Char.isDigit b hallb,
    dropWhile_of_all Char.isDigit b hallb]
  obtain ⟨c, cs, rfl⟩ := List.exists_cons_of_ne_nil hane
  simp

/-- `parseFloat` on a plain decimal rendering. -/
theorem jsParseFloat_decToString (neg : Bool) (ip frac len : Nat) (h : frac < 10 ^ len) :
    jsParseFloat (decToString neg ip frac len) = some (decValue neg ip frac len) := by
  by_cases hlen : len = 0
  · subst hlen
    have hfrac : frac = 0 := by simpa using h
    subst hfrac
    cases neg with
    | false =>
      have hstr : decToString false ip 0 0 = String.mk (natDigits ip) := by
        unfold decToString
        simp
      rw [hstr, jsParseFloat_digits _ (natDigits_ne_nil ip) (natDigits_all_digits ip),
        natDigits_val]
      unfold decValue
      simp
    | true =>
      have hstr : decToString true ip 0 0 = String.mk ('-' :: natDigits ip) := by
        unfold decToString
        simp
      rw [hstr, jsParseFloat_neg_digits _ (natDigits_ne_nil ip) (natDigits_all_digits ip),
        natDigits_val]
      simp [decValue]
  · have h1 : 1 ≤ len := by omega
    cases neg with
    | false =>
      have hstr : decToString false ip frac len =
          String.mk (natDigits ip ++ ('.' :: padDigits frac len)) := by
        unfold decToString
        rw [if_neg hlen]
        simp
      rw [hstr, jsParseFloat_frac_digits _ _ (natDigits_ne_nil ip) (natDigits_all_digits ip)
          (padDigits_all_digits frac len),
        natDigits_val, padDigits_val, padDigits_length h h1]
      unfold decValue
      simp
    | true =>
      have hstr : decToString true ip frac len =
          String.mk ('-' :: (natDigits ip ++ ('.' :: padDigits frac len))) := by
        unfold decToString
        rw [if_neg hlen]
        simp
      rw [hstr, jsParseFloat_neg_frac_digits _ _ (natDigits_ne_nil ip)
          (natDigits_all_digits ip) (padDigits_all_digits frac len),
        natDigits_val, padDigits_val, padDigits_length h h1]
      simp [decValue]

/-- Claim C8: round-trip of the scalar coercions — for every type of the
integer family, coercing the decimal rendering of an integer returns that
integer; for every type of the float family, coercing the plain decimal
rendering of a number returns its exact value; the boolean rendering
round-trips; and coercion is the identity on the text-family types. -/
theorem C8_scalar_round_trip :
    (∀ t, integerTypeNames.contains t = true → ∀ v : Int,
      convertFromXsdType (.str t) (intToString v) = .num (v : Rat)) ∧
    (∀ t, floatTypeNames.contains t = true → ∀ (neg : Bool) (ip frac len : Nat),
      frac < 10 ^ len →
      convertFromXsdType (.str t) (decToString neg ip frac len) =
        .num (decValue neg ip frac len)) ∧
    (∀ b : Bool, convertFromXsdType (.str "boolean") (jsStringOf (.bool b)) = .bool b) ∧
    (∀ t, textTypeNames.contains t = true → ∀ v,
      convertFromXsdType (.str t) v = .str v) := by
  refine ⟨fun t ht v => ?_, fun t ht neg ip frac len h => ?_, fun b => ?_, fun t ht v => ?_⟩
  · have hmem : t ∈ integerTypeNames := List.mem_of_elem_eq_true ht
    simp only [integerTypeNames, List.mem_cons, List.not_mem_nil, or_false] at hmem
    rcases hmem with rfl | rfl | rfl | rfl | rfl | rfl | rfl | rfl | rfl | rfl | rfl | rfl <;>
      · show (match jsParseInt (intToString v) with
              | some n => JSValue.num (n : Rat)
              | none => JSValue.nan) = JSValue.num (v : Rat)
        rw [jsParseInt_intToString v]
  · have hmem : t ∈ floatTypeNames := List.mem_of_elem_eq_true ht
    simp only [floatTypeNames, List.mem_cons, List.not_mem_nil, or_false] at hmem
    rcases hmem with rfl | rfl | rfl <;>
      · show (match jsParseFloat (decToString neg ip frac len) with
              | some q => JSValue.num q
              | none => JSValue.nan) = JSValue.num (decValue neg ip frac len)
        rw [jsParseFloat_decToString neg ip frac len h]
  · cases b <;> rfl
  · have hmem : t ∈ textTypeNames := List.mem_of_elem_eq_true ht
    simp only [textTypeNames, List.mem_cons, List.not_mem_nil, or_false] at hmem
    rcases hmem with rfl | rfl | rfl | rfl | rfl <;> rfl

theorem C8_scalar_round_trip_witness :
    convertFromXsdType (.str "int") (intToString (-42)) = .num ((-42 : Int) : Rat) ∧
    convertFromXsdType (.str "double") (decToString false 1 5 1) =
      .num (decValue false 1 5 1) ∧
    convertFromXsdType (.str "boolean") (jsStringOf (.bool true)) = .bool true ∧
    convertFromXsdType (.str "string") "anything" = .str "anything" :=
  ⟨C8_scalar_round_trip.1 "int" rfl (-42),
   C8_scalar_round_trip.2.1 "double" rfl false 1 5 1 (by norm_num),
   C8_scalar_round_trip.2.2.1 true,
   C8_scalar_round_trip.2.2.2 "string" rfl "anything"⟩

/-- Claim C2 (code evaluated at the failing input): compiling the element
`<xs:element name="age" minOccurs="0" maxOccurs="unbounded">` with an inline
`xs:int` restriction yields the plain `{age$type: "int"}` — `maxOccurs =
parseInt(Number.MAX_VALUE, 10)` evaluates to `1` because `parseInt` reads the
decimal rendering `1.797…e+308` only up to the dot, so the `maxOccurs > 1`
array wrap never fires for `"unbounded"`.  With a numeric `maxOccurs="5"` the
intended wrap `{age$type: ["int", 0, 5]}` does fire. -/
theorem C2_unbounded_maxOccurs_compiles_to_scalar :
    elementToDefinition 9 "element" ageUnboundedElement "urn:t" false false []
      xsdAliasNamespaces = .ok (.obj [("age$type", .str "int")]) ∧
    elementToDefinition 9 "element" ageMaxFiveElement "urn:t" false false []
      xsdAliasNamespaces =
      .ok (.obj [("age$type", .arr [.str "int", .num 0, .num 5])]) ∧
    jsParseInt numberMaxValueString = some 1 :=
  ⟨rfl, rfl, rfl⟩

/-- Claim C4: with the canonical order `E$order = ["a","b"]` declared, parsing
children `a` then `b` attaches no `E$order` key; parsing `b` then `a` attaches
`E$order == ["b","a"]`; and in general the order-attach step records an
observed order exactly when it has more than one entry and fails the
`_compareArray` test against the canonical order (a missing canonical order is
falsy and always fails it). -/
theorem C4_order_suppression :
    fromXml orderEventsAB orderDefinition =
      .obj [("E", .obj [("a", .str ""), ("b", .str "")])] ∧
    fromXml orderEventsBA orderDefinition =
      .obj [("E", .obj [("b", .str ""), ("a", .str "")]),
            ("E$order", .arr [.str "b", .str "a"])] ∧
    (∀ (definedOrder : JSValue) (name : String) (order : List String) (curObj : JSObj),
      attachObservedOrder definedOrder name order curObj =
        if 1 < order.length ∧ compareArray definedOrder order = false then
          setKey curObj (name ++ "$order") (.arr (order.map .str))
        else curObj) := by
  refine ⟨rfl, rfl, fun definedOrder name order curObj => ?_⟩
  unfold attachObservedOrder
  by_cases h1 : 1 < order.length
  · by_cases h2 : compareArray definedOrder order = false
    · simp [h1, h2]
    · simp [h1, h2, eq_true_of_ne_false h2]
  · simp [h1]

/-- Claim C6: parsing `<a xmlns:ns="urn:x"><ns:b/></a>` against a definition
whose own namespace attributes bind `b$namespace`'s alias to `urn:x` yields no
foreign-namespace marker on `b` (and the matching `xmlns:ns` declaration is
elided); binding the alias to `urn:y` instead yields the marker `"ns"` — as
the inline pseudo-attribute `namespace$` on `b` in inline-attributes mode, and
as `b$namespace` on the parent object in non-inline mode. -/
theorem C6_namespace_transparency :
    fromXml namespaceEvents namespaceMatchDefinition =
      .obj [("a", .obj [("b", .str "")])] ∧
    fromXml namespaceEvents namespaceMismatchDefinition =
      .obj [("a", .obj [("$xmlns:ns", .str "urn:x"),
                        ("b", .obj [("namespace$", .str "ns")])])] ∧
    fromXmlEvents namespaceEvents namespaceMismatchDefinition false true =
      .obj [("a$attributes", .obj [("xmlns:ns", .str "urn:x")]),
            ("a", .obj [("b$namespace", .str "ns"), ("b", .str "")])] :=
  ⟨rfl, rfl, rfl⟩

theorem find?_map_setKeyFun (o : JSObj) (j k : String) (v : JSValue) (h : ¬ j = k) :
    (o.map (fun p => if p.1 = j then (j, v) else p)).find? (fun p => p.1 = k) =
      o.find? (fun p => p.1 = k) := by
  induction o with
  | nil => rfl
  | cons p ps ih =>
    simp only [List.map_cons, List.find?_cons]
    by_cases hp : p.1 = j
    · rw [if_pos hp]
      have h2 : (decide ((j, v).1 = k)) = false := by simp [h]
      have h3 : (decide (p.1 = k)) = false := by simp [hp, h]
      rw [h2, h3, ih]
    · rw [if_neg hp]
      by_cases hk : p.1 = k
      · have h2 : (decide (p.1 = k)) = true := by simp [hk]
        rw [h2]
      · have h2 : (decide (p.1 = k)) = false := by simp [hk]
        rw [h2, ih]

theorem any_map_setKeyFun (o : JSObj) (j k : String) (v : JSValue) (h : ¬ j = k) :
    ((o.map (fun p => if p.1 = j then (j, v) else p)).any fun p => p.1 = k) =
      o.any fun p => p.1 = k := by
  induction o with
  | nil => rfl
  | cons p ps ih =>
    by_cases hp : p.1 = j <;> simp [hp, h, ih]

theorem hasOwn_setKey_ne (o : JSObj) (j k : String) (v : JSValue) (h : ¬ j = k) :
    hasOwn (setKey o j v) k = hasOwn o k := by
  unfold setKey
  by_cases hj : hasOwn o j = true
  · rw [if_pos hj]
    unfold hasOwn
    exact any_map_setKeyFun o j k v h
  · rw [if_neg hj]
    unfold hasOwn
    rw [List.any_append]
    simp [h]

theorem getKey_setKey_ne (o : JSObj) (j k : String) (v : JSValue) (h : ¬ j = k) :
    getKey (setKey o j v) k = getKey o k := by
  unfold setKey
  by_cases hj : hasOwn o j = true
  · rw [if_pos hj]
    unfold getKey
    rw [find?_map_setKeyFun o j k v h]
  · rw [if_neg hj]
    unfold getKey
    rw [List.find?_append]
    have h2 : List.find? (fun p => p.1 = k) [(j, v)] = none := by
      simp [List.find?_cons, h]
    rw [h2]
    cases List.find? (fun p => p.1 = k) o <;> rfl

theorem hasOwn_setKey_self (o : JSObj) (k : String) (v : JSValue) :
    hasOwn (setKey o k v) k = true := by
  unfold setKey
  by_cases hj : hasOwn o k = true
  · rw [if_pos hj]
    unfold hasOwn at hj ⊢
    rw [List.any_eq_true] at hj ⊢
    obtain ⟨p, hp, hpk⟩ := hj
    refine ⟨(k, v), List.mem_map.mpr ⟨p, hp, ?_⟩, by simp⟩
    have : p.1 = k := of_decide_eq_true hpk
    rw [if_pos this]
  · rw [if_neg hj]
    unfold hasOwn
    rw [List.any_append]
    simp

theorem hasOwn_delKey_ne (o : JSObj) (j k : String) (h : ¬ j = k) :
    hasOwn (delKey o j) k = hasOwn o k := by
  unfold delKey hasOwn
  induction o with
  | nil => rfl
  | cons p ps ih =>
    simp only [List.filter_cons, List.any_cons]
    by_cases hp : p.1 = j
    · rw [if_neg (by simp [hp])]
      have h3 : (decide (p.1 = k)) = false := by simp [hp, h]
      rw [h3, ih]
      rfl
    · rw [if_pos (by simp [hp])]
      simp only [List.any_cons]
      rw [ih]

theorem getKey_delKey_ne (o : JSObj) (j k : String) (h : ¬ j = k) :
    getKey (delKey o j) k = getKey o k := by
  unfold delKey getKey
  induction o with
  | nil => rfl
  | cons p ps ih =>
    by_cases hp : p.1 = j
    · rw [List.filter_cons, if_neg (by simp [hp]), List.find?_cons,
        show (decide (p.1 = k)) = false by simp [hp, h]]
      exact ih
    · rw [List.filter_cons, if_pos (by simp [hp]), List.find?_cons, List.find?_cons]
      by_cases hk : p.1 = k
      · rw [show (decide (p.1 = k)) = true by simp [hk]]
      · rw [show (decide (p.1 = k)) = false by simp [hk]]
        exact ih

theorem hasOwn_delKey_self (o : JSObj) (k : String) :
    hasOwn (delKey o k) k = false := by
  unfold delKey hasOwn
  induction o with
  | nil => rfl
  | cons p ps ih =>
    by_cases hp : p.1 = k
    · rw [List.filter_cons, if_neg (by simp [hp])]
      exact ih
    · rw [List.filter_cons, if_pos (by simp [hp]), List.any_cons, ih,
        show (decide (p.1 = k)) = false by simp [hp]]
      rfl

theorem hasOwn_of_mem {o : JSObj} {k : String} {v : JSValue} (h : (k, v) ∈ o) :
    hasOwn o k = true := by
  unfold hasOwn
  rw [List.any_eq_true]
  exact ⟨(k, v), h, by simp⟩

theorem getKey_of_mem_nodup {o : JSObj} {k : String} {v : JSValue}
    (hnd : (o.map Prod.fst).Nodup) (h : (k, v) ∈ o) : getKey o k = v := by
  unfold getKey
  induction o with
  | nil => exact absurd h (List.not_mem_nil _)
  | cons p ps ih =>
    simp only [List.map_cons, List.nodup_cons] at hnd
    rcases List.mem_cons.mp h with rfl | hmem
    · simp [List.find?_cons]
    · have hk : ¬ p.1 = k := by
        intro hpk
        exact hnd.1 (hpk ▸ List.mem_map.mpr ⟨(k, v), hmem, rfl⟩)
      simp only [List.find?_cons]
      have h2 : (decide (p.1 = k)) = false := by simp [hk]
      rw [h2]
      exact ih hnd.2 hmem

theorem genDefXmlStep_preserves (recur : JSValue → Option (JSObj × JSValue))
    (g : Bool) (st r : JSObj × JSObj) (j k : String) (hjk : ¬ j = k)
    (h : genDefXmlStep recur g st j = some r) :
    hasOwn r.2 k = hasOwn st.2 k ∧ getKey r.2 k = getKey st.2 k := by
  unfold genDefXmlStep at h
  dsimp only at h
  split at h
  · cases h
    exact ⟨rfl, rfl⟩
  · split at h
    · split at h
      · split at h
        · exact Option.noConfusion h
        · cases h
          exact ⟨hasOwn_setKey_ne _ _ _ _ hjk, getKey_setKey_ne _ _ _ _ hjk⟩
      · cases h
        exact ⟨rfl, rfl⟩
    · split at h
      · exact Option.noConfusion h
      · cases h
        exact ⟨hasOwn_setKey_ne _ _ _ _ hjk, getKey_setKey_ne _ _ _ _ hjk⟩
    · exact Option.noConfusion h
    · exact Option.noConfusion h
    · split at h
      · cases h
        exact ⟨hasOwn_delKey_ne _ _ _ hjk, getKey_delKey_ne _ _ _ hjk⟩
      · split at h
        · cases h
          exact ⟨hasOwn_delKey_ne _ _ _ hjk, getKey_delKey_ne _ _ _ hjk⟩
        · cases h
          exact ⟨hasOwn_delKey_ne _ _ _ hjk, getKey_delKey_ne _ _ _ hjk⟩
      · exact Option.noConfusion h

theorem genDefXmlStep_decorated (recur : JSValue → Option (JSObj × JSValue))
    (g : Bool) (st r : JSObj × JSObj) (k : String) (hd : 0 < jsIndexOfChar k '$')
    (h : genDefXmlStep recur g st k = some r) : r.2 = st.2 := by
  unfold genDefXmlStep at h
  dsimp only at h
  rw [if_pos hd] at h
  cases h
  rfl

theorem genDefXmlStep_scalar (recur : JSValue → Option (JSObj × JSValue))
    (g : Bool) (st r : JSObj × JSObj) (k : String) (hd : ¬ 0 < jsIndexOfChar k '$')
    (hv : (∃ s, getKey st.2 k = .str s) ∨ getKey st.2 k = .undef)
    (h : genDefXmlStep recur g st k = some r) : r.2 = delKey st.2 k := by
  unfold genDefXmlStep at h
  dsimp only at h
  rw [if_neg hd] at h
  rcases hv with ⟨s, hs⟩ | hs <;> rw [hs] at h
  · dsimp only at h
    split at h
    · cases h
      rfl
    · cases h
      rfl
  · cases h
    rfl

theorem genDefXmlStep_object (recur : JSValue → Option (JSObj × JSValue))
    (g : Bool) (st r : JSObj × JSObj) (k : String) (hd : ¬ 0 < jsIndexOfChar k '$')
    (hv : (∃ i, getKey st.2 k = .obj i) ∨ (∃ xs, getKey st.2 k = .arr xs))
    (hown : hasOwn st.2 k = true)
    (h : genDefXmlStep recur g st k = some r) : hasOwn r.2 k = true := by
  unfold genDefXmlStep at h
  dsimp only at h
  rw [if_neg hd] at h
  rcases hv with ⟨i, hs⟩ | ⟨xs, hs⟩ <;> rw [hs] at h
  · dsimp only at h
    split at h
    · exact Option.noConfusion h
    · cases h
      exact hasOwn_setKey_self _ _ _
  · dsimp only at h
    split at h
    · split at h
      · exact Option.noConfusion h
      · cases h
        exact hasOwn_setKey_self _ _ _
    · cases h
      exact hown

theorem foldlM_preserves_key (f : JSObj × JSObj → String → Option (JSObj × JSObj))
    (k : String)
    (hf : ∀ st j r, ¬ j = k → f st j = some r →
      hasOwn r.2 k = hasOwn st.2 k ∧ getKey r.2 k = getKey st.2 k)
    (keys : List String) :
    ∀ init fin : JSObj × JSObj, k ∉ keys → keys.foldlM f init = some fin →
      hasOwn fin.2 k = hasOwn init.2 k ∧ getKey fin.2 k = getKey init.2 k := by
  induction keys with
  | nil =>
    intro init fin _ h
    cases h
    exact ⟨rfl, rfl⟩
  | cons a as ih =>
    intro init fin hk h
    rw [List.foldlM_cons] at h
    cases hfa : f init a with
    | none =>
      rw [hfa] at h
      exact Option.noConfusion h
    | some st =>
      rw [hfa] at h
      have hak : ¬ a = k := fun hak => hk (hak ▸ List.mem_cons_self a as)
      have h1 := hf init a st hak hfa
      have h2 := ih st fin (fun hm => hk (List.mem_cons_of_mem _ hm)) (by simpa using h)
      exact ⟨h2.1.trans h1.1, h2.2.trans h1.2⟩

/-- Claim C5 (amended): an attribute whose wire value equals the declared
default is elided and a differing value is kept (coerced when a `…$type` is
declared) — except that a namespace-prefixed attribute whose prefix resolves
to no definition-declared namespace is compared against the initial empty
string, so such an attribute is elided exactly when its value is empty. -/
theorem C5_attribute_default_elision :
    (∀ v d : String,
      fromXml [.startElement "E" [("k", v)], .endElement "E"]
          (.obj [("E$attributes", .obj [("k", .str d)])]) =
        (if v = d then .obj [("E", .str "")]
         else .obj [("E", .obj [("$k", .str v)])])) ∧
    (fromXml [.startElement "E" [("k", "42")], .endElement "E"]
        (.obj [("E$attributes", .obj [("k", .str "x"), ("k$type", .str "int")])]) =
      .obj [("E", .obj [("$k", .num 42)])]) ∧
    (∀ v : String,
      fromXml [.startElement "E" [("a:x", v)], .endElement "E"] (.obj []) =
        (if v = "" then .obj [("E", .str "")]
         else .obj [("E", .obj [("$a:x", .str v)])])) := by
  refine ⟨fun v d => ?_, rfl, fun v => ?_⟩
  · by_cases h : v = d
    · subst h
      simp [fromXml, fromXmlEvents, step, startElementStep, endElementStep, initState,
        splitNsName, jsSplitChar, splitCharList, getProp, getKey, hasOwn, setKey, mapGet,
        mapSet, jsTruthy, strictEqStr, jsStringOf, strStartsWith, strLength, strDrop,
        convertFromXsdType, convertDispatch, strEndsWith, compareArray, attachObservedOrder,
        propCount, isTypeofObject, jsTrim, writeBack, flushStack]
    · simp [fromXml, fromXmlEvents, step, startElementStep, endElementStep, initState,
        splitNsName, jsSplitChar, splitCharList, getProp, getKey, hasOwn, setKey, mapGet,
        mapSet, jsTruthy, strictEqStr, jsStringOf, strStartsWith, strLength, strDrop,
        convertFromXsdType, convertDispatch, strEndsWith, compareArray, attachObservedOrder,
        propCount, isTypeofObject, jsTrim, writeBack, flushStack, h]
  · by_cases h : v = ""
    · subst h
      simp [fromXml, fromXmlEvents, step, startElementStep, endElementStep, initState,
        splitNsName, jsSplitChar, splitCharList, getProp, getKey, hasOwn, setKey, mapGet,
        mapSet, jsTruthy, strictEqStr, jsStringOf, strStartsWith, strLength, strDrop,
        convertFromXsdType, convertDispatch, strEndsWith, compareArray, attachObservedOrder,
        propCount, isTypeofObject, jsTrim, writeBack, flushStack]
    · simp [fromXml, fromXmlEvents, step, startElementStep, endElementStep, initState,
        splitNsName, jsSplitChar, splitCharList, getProp, getKey, hasOwn, setKey, mapGet,
        mapSet, jsTruthy, strictEqStr, jsStringOf, strStartsWith, strLength, strDrop,
        convertFromXsdType, convertDispatch, strEndsWith, compareArray, attachObservedOrder,
        propCount, isTypeofObject, jsTrim, writeBack, flushStack, h]

/-- Claim C3 (amended): two same-named sibling elements under a parent not
declared array-typed are collected into a two-element array; for text-only
occurrences the entries equal the single-occurrence parse values; but a later
occurrence that parses to a non-empty object additionally receives a `$`
annotation holding its (converted) trailing text even when that text is
empty — the array branch of `endElement` annotates unconditionally, where the
scalar branch first checks `currentValue.trim() != ''` — so such entries
differ from single-occurrence parses (see the counterexample theorem); an
element whose declared type is array-typed starts as a one-element array on
its first occurrence. -/
theorem C3_array_promotion :
    (∀ t1 t2 : String,
      fromXml (siblingLeafEvents t1 t2) (.obj []) =
        .obj [("p", .obj [("n", .arr [.str t1, .str t2])])] ∧
      fromXml (singleLeafEvents t1) (.obj []) = .obj [("p", .obj [("n", .str t1)])] ∧
      fromXml (singleLeafEvents t2) (.obj []) = .obj [("p", .obj [("n", .str t2)])]) ∧
    (fromXml siblingObjectEventsBoth (.obj []) =
      .obj [("p", .obj [("n", .arr [.obj [("c", .str "x")],
                                    .obj [("c", .str "y"), ("$", .str "")]])])]) ∧
    (fromXml [.startElement "n" [], .text "hi", .endElement "n"] arrayTypedDefinition =
      .obj [("n", .arr [.str "hi"])]) := by
  refine ⟨fun t1 t2 => ⟨?_, ?_, ?_⟩, rfl, rfl⟩ <;>
    simp [fromXml, fromXmlEvents, step, startElementStep, endElementStep, initState,
      siblingLeafEvents, singleLeafEvents, splitNsName, jsSplitChar, splitCharList, getProp,
      getKey, hasOwn, setKey, mapGet, mapSet, jsTruthy, strictEqStr, jsStringOf,
      strStartsWith, strLength, strDrop, convertFromXsdType, convertDispatch, strEndsWith,
      compareArray, attachObservedOrder, propCount, isTypeofObject, jsTrim, writeBack,
      flushStack]

/-- Claim C1 counterexample: coercing the undeclared type name `"frobnicate"`
does not fail — `_convertFromXsdType` has no throw path at all and its final
`else` returns the raw text unchanged, so the value `"x"` comes back as-is,
contradicting the claim that an `UnknownTypeError` is raised instead of
returning a value. -/
theorem C1_counterexample_frobnicate_returns_value :
    convertFromXsdType (.str "frobnicate") "x" = .str "x" :=
  rfl

/-- Claim C3 counterexample: parsing the two sibling `n` objects of
`<p><n><c>x</c></n><n><c>y</c></n></p>` (empty definition) puts
`{c:"y", $:""}` in the second array slot — the array branch of `endElement`
annotates a non-empty object with its (here empty) trailing text
unconditionally — whereas parsing the second occurrence alone produces plain
`{c:"y"}`, so the second entry does not equal the single-occurrence parse. -/
theorem C3_counterexample_second_entry_differs :
    fromXml siblingObjectEventsBoth (.obj []) =
      .obj [("p", .obj [("n", .arr [.obj [("c", .str "x")],
                                    .obj [("c", .str "y"), ("$", .str "")]])])] ∧
    fromXml siblingObjectEventsSecond (.obj []) =
      .obj [("p", .obj [("n", .obj [("c", .str "y")])])] ∧
    ¬ (JSValue.obj [("c", .str "y"), ("$", .str "")] = .obj [("c", .str "y")]) := by
  refine ⟨rfl, rfl, by simp⟩

/-- Claim C5 counterexample: the attribute `a:x=""` of `<E a:x=""/>` has no
declared default in the empty definition, so by the claim it should survive
into the output; but for a prefixed attribute whose prefix resolves to no
definition-declared namespace the filter compares against the initial
`definitionValue = ''`, so the empty-valued attribute is elided and the
parse yields plain `{E: ""}` with no attribute key. -/
theorem C5_counterexample_empty_prefixed_attribute_elided :
    fromXml [.startElement "E" [("a:x", "")], .endElement "E"] (.obj []) =
      .obj [("E", .str "")] :=
  rfl

/-- Claim C9 (amended): `generateDefinition` in "xml" mode mutates the object
it infers from, but the deletion is keyed on the shape of the value, not on
its non-emptiness: on a successful walk over an object tree with distinct
keys, every undecorated key bound to a string scalar — empty or not — or to
`undefined` is deleted from the input tree by the time the call returns,
while keys bound to objects or arrays are kept, and keys decorated with a
`$` at positive index are kept with their value untouched. -/
theorem C9_generate_definition_mutation
    (fuel : Nat) (g : Bool) (fields defn o2 : JSObj) (k : String) (v : JSValue)
    (hnd : (fields.map (fun p => p.1)).Nodup)
    (hmem : (k, v) ∈ fields)
    (hrun : generateDefinitionXml (fuel + 1) (.obj fields) g = some (defn, .obj o2)) :
    (0 < jsIndexOfChar k '$' → hasOwn o2 k = true ∧ getKey o2 k = v) ∧
    (¬ 0 < jsIndexOfChar k '$' →
      ((∃ s, v = .str s) ∨ v = .undef → hasOwn o2 k = false) ∧
      ((∃ i, v = .obj i) ∨ (∃ xs, v = .arr xs) → hasOwn o2 k = true)) := by
  simp only [generateDefinitionXml] at hrun
  cases hfold : (fields.map (fun p => p.1)).foldlM
      (genDefXmlStep (fun v => generateDefinitionXml fuel v g) g)
      (([], fields) : JSObj × JSObj) with
  | none =>
    rw [hfold] at hrun
    exact Option.noConfusion hrun
  | some r =>
    rw [hfold] at hrun
    have hr : r.1 = defn ∧ JSValue.obj r.2 = JSValue.obj o2 := by
      have := Option.some.inj hrun
      exact ⟨congrArg Prod.fst this, congrArg Prod.snd this⟩
    have hr2 : r.2 = o2 := by
      cases hr.2
      rfl
    subst hr2
    have hown0 : hasOwn fields k = true := hasOwn_of_mem hmem
    have hget0 : getKey fields k = v := getKey_of_mem_nodup hnd hmem
    obtain ⟨l1, l2, rfl⟩ := List.append_of_mem hmem
    have hkeys : ((l1 ++ (k, v) :: l2).map (fun p => p.1)) =
        l1.map (fun p => p.1) ++ k :: l2.map (fun p => p.1) := by
      simp
    rw [hkeys, List.foldlM_append] at hfold
    simp only [List.foldlM_cons, Option.bind_eq_bind, Option.bind_eq_some] at hfold
    obtain ⟨st1, h1, st2, h2, h3⟩ := hfold
    simp only [List.map_append, List.map_cons] at hnd
    rw [List.nodup_append] at hnd
    have hk1 : k ∉ l1.map (fun p => p.1) :=
      fun hm => hnd.2.2 hm (List.mem_cons_self _ _)
    have hk2 : k ∉ l2.map (fun p => p.1) := (List.nodup_cons.mp hnd.2.1).1
    have stage1 := foldlM_preserves_key _ k
      (fun st j r hj hr => genDefXmlStep_preserves _ g st r j k hj hr) _ _ _ hk1 h1
    have stage3 := foldlM_preserves_key _ k
      (fun st j r hj hr => genDefXmlStep_preserves _ g st r j k hj hr) _ _ _ hk2 h3
    have hown1 : hasOwn st1.2 k = true := stage1.1.trans hown0
    have hget1 : getKey st1.2 k = v := stage1.2.trans hget0
    constructor
    · intro hd
      have hcur := genDefXmlStep_decorated _ g st1 st2 k hd h2
      exact ⟨stage3.1.trans (hcur ▸ hown1), stage3.2.trans (hcur ▸ hget1)⟩
    · intro hd
      constructor
      · intro hv
        have hv' : (∃ s, getKey st1.2 k = .str s) ∨ getKey st1.2 k = .undef := by
          rcases hv with ⟨s, rfl⟩ | rfl
          · exact Or.inl ⟨s, hget1⟩
          · exact Or.inr hget1
        have hcur := genDefXmlStep_scalar _ g st1 st2 k hd hv' h2
        rw [stage3.1, hcur, hasOwn_delKey_self]
      · intro hv
        have hv' : (∃ i, getKey st1.2 k = .obj i) ∨
            (∃ xs, getKey st1.2 k = .arr xs) := by
          rcases hv with ⟨i, rfl⟩ | ⟨xs, rfl⟩
          · exact Or.inl ⟨i, hget1⟩
          · exact Or.inr ⟨xs, hget1⟩
        rw [stage3.1]
        exact genDefXmlStep_object _ g st1 st2 k hd hv' hown1 h2

/-- Witness for the C9 theorem on the concrete tree `{a: "x", "c$t": "q"}`:
the scalar key `a` is gone from the mutated tree while the decorated key
`c$t` survives with its value. -/
theorem C9_generate_definition_mutation_witness :
    hasOwn [("c$t", JSValue.str "q")] "a" = false ∧
    getKey [("c$t", JSValue.str "q")] "c$t" = JSValue.str "q" :=
  ⟨((C9_generate_definition_mutation 0 false
      [("a", .str "x"), ("c$t", .str "q")]
      [("a$type", .str "string"), ("c$t", .str "q")]
      [("c$t", .str "q")] "a" (.str "x")
      (by decide) (List.Mem.head _) rfl).2 (by decide)).1 (Or.inl ⟨"x", rfl⟩),
   ((C9_generate_definition_mutation 0 false
      [("a", .str "x"), ("c$t", .str "q")]
      [("a$type", .str "string"), ("c$t", .str "q")]
      [("c$t", .str "q")] "c$t" (.str "q")
      (by decide) (List.Mem.tail _ (List.Mem.head _)) rfl).1 (by decide)).2⟩

/-- Claim C9 counterexample: on the input tree `{a: "", "x$y": "hello"}` the
walk deletes the key `a` even though its scalar value is empty (the
`delete obj[key]` sits after the type-guess chain, unconditionally in the
scalar branch), and keeps the key `x$y` bound to the non-empty scalar
`"hello"` (keys with a `$` at positive index are copied to the definition and
never deleted) — contradicting both the claim's "non-empty" qualifier and its
"empty values are kept" parenthetical. -/
theorem C9_counterexample_empty_scalar_deleted :
    generateDefinitionXml 2 (.obj [("a", .str ""), ("x$y", .str "hello")]) false =
      some ([("x$y", .str "hello")], .obj [("x$y", .str "hello")]) :=
  rfl

/-- Claim C10 counterexample: `generateSample` does return a value when
`definition[rootName]` is a non-object — for the string-valued entry
`{r: "x"}` the walk iterates the string's index keys, skips them all (their
values are characters, not objects) and returns `{r: {}}`, so the claimed
"only under the precondition that `definition[rootName]` is an object" is
false. -/
theorem C10_counterexample_returns_for_non_object :
    generateSample 2 "r" [("r", .str "x")] = some (.obj [("r", .obj [])]) :=
  rfl

end XmlExact
